import Mathlib

/-! BDSInpaintingRings: the ring-decomposition patch-match inpainting controller.

A shallow embedding of `BDSInpaintingRings<TImage>::Inpaint`
(`BDSInpaintingRings.hpp`), of the members it inherits from
`InpaintingAlgorithm` (`InpaintingAlgorithm.h`) and of the command line driver
(`Drivers/BDSInpaintingRings.cpp`).

Conventions.
* A mask is a two-valued raster; `valid x y = true` is the Valid value and
  `false` the Hole value.
* A single-precision float is the rational it denotes: `2.0f` is `2` and
  `0.2f` is `13421773/67108864`. Float addition is the exact sum rounded to
  the nearest single-precision value, ties to even (`roundToFloat`); an
  `unsigned int` counter is a natural number incremented modulo 2^32.
* Functors of the submodules (propagation, random search, PatchMatch, the
  initialisers, the verifier, the inner `BDSInpainting`) are fields of
  `Collaborators`; every statement quantifies over them.
* The mask morphology and the helpers of the Mask, ITKHelpers and PatchMatch
  submodules follow the wording of the design document; each such definition
  says so.
* Debug dumps (`WriteImage`, `WriteNNField`, `std::cout`) have no effect on the
  state and are left out.
-/

namespace BDSInpainting

/-! ## Region masks -/

/-- Pixels of a `width` by `height` region in raster order (x runs fastest). -/
def pixelsOf (width height : Nat) : List (Nat × Nat) :=
  (List.range height).flatMap fun y => (List.range width).map fun x => (x, y)

/-- Square patch membership: `(i, j)` lies in the patch of radius `k` centred on `(x, y)`. -/
def inPatch (k x y i j : Nat) : Bool :=
  decide (x ≤ i + k) && decide (i ≤ x + k) && decide (y ≤ j + k) && decide (j ≤ y + k)

/-- Region test: the pixel `(x, y)` is inside a `width` by `height` region. -/
def inRegion (width height x y : Nat) : Bool :=
  decide (x < width) && decide (y < height)

/-- Patch containment: the whole patch of radius `k` centred on `(x, y)` is inside the region. -/
def patchInRegion (width height k x y : Nat) : Bool :=
  decide (k ≤ x) && decide (x + k < width) && decide (k ≤ y) && decide (y + k < height)

/-- Binary Valid/Hole raster (`Mask`); `valid x y = true` means Valid, `false` means Hole. -/
structure Mask where
  width : Nat
  height : Nat
  valid : Nat → Nat → Bool

/-- Which side of the Valid/Hole transition is meant (`Mask::VALID`, `Mask::HOLE`). -/
inductive HoleMaskPixelTypeEnum where
  | HOLE
  | VALID
  deriving DecidableEq, Repr

/-- Neighbourhood used for adjacency; the spec leaves it a design choice. -/
inductive Connectivity where
  | four
  | eight
  deriving DecidableEq, Repr

/-- Adjacency of `(i, j)` to `(x, y)` under the chosen connectivity. -/
def adjacent : Connectivity → Nat → Nat → Nat → Nat → Bool
  | .eight, x, y, i, j => inPatch 1 x y i j && !(decide (i = x) && decide (j = y))
  | .four, x, y, i, j =>
      (decide (j = y) && (decide (i = x + 1) || decide (x = i + 1))) ||
      (decide (i = x) && (decide (j = y + 1) || decide (y = j + 1)))

namespace Mask

/-- `Mask::New()`: a fresh mask with an empty region. -/
def New : Mask := ⟨0, 0, fun _ _ => false⟩

/-- `Mask::DeepCopyFrom`: value copy. -/
def DeepCopyFrom (_self other : Mask) : Mask := other

/-- `Mask::InvertData`: swap Valid and Hole. -/
def InvertData (m : Mask) : Mask :=
  { m with valid := fun x y => !m.valid x y }

/-- `Mask::HasValidPixels`: some pixel of the region is Valid. -/
def HasValidPixels (m : Mask) : Bool :=
  (pixelsOf m.width m.height).any fun p => m.valid p.1 p.2

/-- Modelled from the spec: `Mask::ExpandHole(k)`, whose body is in the Mask
submodule. Section 3: "for any pixel whose patch of radius k touches a current
Hole pixel, mark it Hole". -/
def ExpandHole (m : Mask) (k : Nat) : Mask :=
  { m with valid := fun x y =>
      m.valid x y &&
        (pixelsOf m.width m.height).all fun p => !inPatch k x y p.1 p.2 || m.valid p.1 p.2 }

/-- Modelled from the spec: `Mask::ShrinkHole(k)`, whose body is in the Mask
submodule. Section 3: "inverse: shrink Hole by absorbing boundary pixels into
Valid": a pixel whose patch of radius k touches a Valid pixel becomes Valid. -/
def ShrinkHole (m : Mask) (k : Nat) : Mask :=
  { m with valid := fun x y =>
      m.valid x y ||
        (pixelsOf m.width m.height).any fun p => inPatch k x y p.1 p.2 && m.valid p.1 p.2 }

end Mask

/-- The image type of `Mask::BoundaryImageType` (unsigned char pixels). -/
structure BoundaryImage where
  width : Nat
  height : Nat
  pixel : Nat → Nat → Nat

/-- Modelled from the spec: `Mask::FindBoundary(boundaryImage, whichSide, value)`,
whose body is in the Mask submodule. Section 8.3: the boundary on the Valid side
is "exactly the Valid pixels adjacent (4- or 8-connected, per design choice) to a
Hole pixel"; boundary pixels get `outputBoundaryPixelValue`, all others 0. -/
def Mask.FindBoundary (m : Mask) (conn : Connectivity) (whichSide : HoleMaskPixelTypeEnum)
    (outputBoundaryPixelValue : Nat) : BoundaryImage :=
  { width := m.width
    height := m.height
    pixel := fun x y =>
      let mine : Bool := match whichSide with
        | .VALID => m.valid x y
        | .HOLE => !m.valid x y
      let other : Nat → Nat → Bool := fun i j => match whichSide with
        | .VALID => !m.valid i j
        | .HOLE => m.valid i j
      if mine && (pixelsOf m.width m.height).any fun p => adjacent conn x y p.1 p.2 && other p.1 p.2
      then outputBoundaryPixelValue else 0 }

/-- `Mask::CreateFromImage(image, holeValue, validValue)`: a pixel equal to
`validValue` is Valid; every other pixel is Hole in the two-valued raster. -/
def Mask.CreateFromImage (image : BoundaryImage) (_holeValue validValue : Nat) : Mask :=
  { width := image.width
    height := image.height
    valid := fun x y => decide (image.pixel x y = validValue) }

/-- Modelled from the spec: `ITKHelpers::XORImages(a, b, out, trueValue)`, whose
body is in the ITKHelpers submodule. Section 3: "XOR of two masks
(symmetric-difference mask)": the output carries the Valid value where the two
inputs differ. -/
def XORImages (image1 image2 : Mask) : Mask :=
  { width := image1.width
    height := image1.height
    valid := fun x y => xor (image1.valid x y) (image2.valid x y) }

/-- Modelled from the spec: `ITKHelpers::GetBoundaryPixels(region, thickness)`,
whose body is in the ITKHelpers submodule: the pixels of the region within
`thickness` of its border (section 4.3, "a 1-pixel image-border strip"). -/
def GetBoundaryPixels (width height thickness : Nat) : List (Nat × Nat) :=
  (pixelsOf width height).filter fun p =>
    decide (p.1 < thickness) || decide (p.2 < thickness) ||
      decide (width ≤ p.1 + thickness) || decide (height ≤ p.2 + thickness)

/-- `ITKHelpers::SetPixels(mask, pixels, value)`: overwrite the listed pixels. -/
def SetPixels (m : Mask) (pixels : List (Nat × Nat)) (value : Bool) : Mask :=
  { m with valid := fun x y => if (x, y) ∈ pixels then value else m.valid x y }

/-! ## Images and the nearest-neighbour field -/

/-- Raster image with pixels of type `P` (`TImage`). -/
structure TImage (P : Type) where
  width : Nat
  height : Nat
  pixel : Nat → Nat → P

/-- `ITKHelpers::DeepCopy(input, output)`: the new value of `output`, a value copy. -/
def DeepCopy {α : Type} (input : α) : α := input

/-- Modelled from the spec: the cell type `Match` of the PatchMatch submodule.
Section 3: a record `{ sourceOffset, distance, verified }`; `Verified` is the
member the lambda of `Inpaint` reads. -/
structure Match where
  sourceOffset : Int × Int
  distance : ℚ
  Verified : Bool

/-- A default-constructed `Match`: no offset, no score, not verified. -/
def Match.unset : Match :=
  { sourceOffset := (0, 0), distance := 0, Verified := false }

/-- Grid of matches parallel to the image (`PatchMatchHelpers::NNFieldType`). -/
structure NNField where
  width : Nat
  height : Nat
  entry : Nat → Nat → Match

/-- `nnField->SetRegions(region); nnField->Allocate()`. -/
def NNField.Allocate (width height : Nat) : NNField :=
  { width := width, height := height, entry := fun _ _ => Match.unset }

/-- Modelled from the spec: `PatchMatchHelpers::CountTestedPixels(nnField, mask,
test)`, whose body is in the PatchMatch submodule. Section 4.2,
`countMatching(mask, predicate)`: "number of pixels under `mask` for which an
arbitrary predicate over the entry holds". -/
def CountTestedPixels (nnField : NNField) (mask : Mask) (test : Match → Bool) : Nat :=
  (pixelsOf nnField.width nnField.height).countP fun p =>
    mask.valid p.1 p.2 && test (nnField.entry p.1 p.2)

/-- The lambda `testNotVerifiedLambda` of `Inpaint`. -/
def testNotVerifiedLambda (queryMatch : Match) : Bool :=
  if !queryMatch.Verified then true else false

/-! ## Single-precision arithmetic -/

/-- Rounding of a rational to the nearest integer, ties to the even one. -/
def roundHalfEven (t : ℚ) : ℤ :=
  if t - ⌊t⌋ < 1 / 2 then ⌊t⌋
  else if 1 / 2 < t - ⌊t⌋ then ⌊t⌋ + 1
  else if ⌊t⌋ % 2 = 0 then ⌊t⌋ else ⌊t⌋ + 1

/-- The exponent of the unit in the last place of a single-precision value of
the magnitude of `q`: 24 significant bits, and never below the subnormal 2^-149. -/
def floatExponent (q : ℚ) : ℤ := max (Int.log 2 |q| - 23) (-149)

/-- IEEE 754 binary32 rounding in the default mode (to nearest, ties to even):
the multiple of the unit in the last place nearest to `q`. Overflow to infinity
(magnitudes from 2^128 on) is not represented. -/
def roundToFloat (q : ℚ) : ℚ :=
  (roundHalfEven (q / 2 ^ floatExponent q) : ℚ) * 2 ^ floatExponent q

/-- The `+` of two `float` values: the exact sum, rounded. -/
def floatAdd (a b : ℚ) : ℚ := roundToFloat (a + b)

/-- A single-precision value of magnitude at least 2: a significand of 24 bits
times a power of two with exponent at least -22. -/
def IsFloatFromTwo (h : ℚ) : Prop :=
  ∃ M a : ℤ, 8388608 ≤ M ∧ M < 16777216 ∧ -22 ≤ a ∧ h = (M : ℚ) * 2 ^ a

/-- The range of an `unsigned int` (32 bits). -/
def UINT_RANGE : Nat := 4294967296

/-! ## The controller -/

/-- The local `histogramMultiplierInitial` (`2.0f`, an exact float). -/
def histogramMultiplierInitial : ℚ := 2

/-- The local `histogramMultiplierStep` (`0.2f`): the float nearest to 0.2. -/
def histogramMultiplierStep : ℚ := 13421773 / 67108864

/-- Settings of `AcceptanceTestNeighborHistogram` that `Inpaint` writes. -/
structure AcceptanceTestNeighborHistogram where
  RangeMin : ℚ
  RangeMax : ℚ
  PatchRadius : Nat
  NeighborHistogramMultiplier : ℚ

/-- `AcceptanceTestNeighborHistogram::SetNeighborHistogramMultiplier`. -/
def AcceptanceTestNeighborHistogram.SetNeighborHistogramMultiplier
    (a : AcceptanceTestNeighborHistogram) (m : ℚ) : AcceptanceTestNeighborHistogram :=
  { a with NeighborHistogramMultiplier := m }

/-- Members of `InpaintingAlgorithm<TImage>` together with the `PatchMatchFunctor`
member of the rings controller; `σ` is the internal state of that functor. -/
structure BDSInpaintingRings (P σ : Type) where
  Iterations : Nat
  PatchRadius : Nat
  Output : TImage P
  Image : TImage P
  TargetMask : Mask
  SourceMask : Mask
  PatchMatchFunctor : σ

/-- Behaviour of the functors `Inpaint` drives; each is an arbitrary function
of the arguments the source passes to it. -/
structure Collaborators (P σ : Type) where
  /-- The call `propagationFunctor.Propagate(nnField)` of line 121. -/
  Propagate : AcceptanceTestNeighborHistogram → NNField → NNField
  /-- The call `patchMatchFunctor.Compute(nnField, ...)` of line 130 (local functor). -/
  LocalCompute : Nat → NNField → NNField
  /-- The call `initializerKnownRegion.Initialize(nnField)`: source mask, patch radius. -/
  InitializeKnownRegion : Mask → Nat → NNField → NNField
  /-- The call `initializer.Initialize(nnField)`: image, target mask, source mask, radius. -/
  InitializeRandom : TImage P → Mask → Mask → Nat → NNField → NNField
  /-- The call `verifier.Verify(nnField)`: image, mask, multiplier, patch radius. -/
  Verify : TImage P → Mask → ℚ → Nat → NNField → NNField
  /-- The calls `SetInitialNNField(nnField); Compute()` on the member functor. -/
  Compute : σ → NNField → σ
  /-- The call `GetOutput()` on the member functor. -/
  GetOutput : σ → NNField
  /-- The inner `BDSInpainting`: image, patch radius, target mask, source mask. -/
  BDSInpaint : TImage P → Nat → Mask → Mask → TImage P

/-- Object members plus the locals of `Inpaint` that live across statements. -/
structure InpaintState (P σ : Type) extends BDSInpaintingRings P σ where
  currentTargetMask : Mask
  currentImage : TImage P
  currentPropagationMask : Mask
  expandedTargetMask : Mask
  outsideTargetMask : Mask
  nnField : NNField
  acceptanceTest : AcceptanceTestNeighborHistogram
  histogramMultiplier : ℚ
  iteration : Nat
  ringCounter : Nat

/-- Lines 50-107 of `Inpaint`: the snapshots of the inputs, the derived masks,
the allocation of the NNField over the region of `currentImage` and the set-up
of the acceptance test with multiplier `2.0f`. The locals declared further down
(`histogramMultiplier`, `iteration`, `ringCounter`) carry their initial values. -/
def inpaintEntry {P σ : Type} (self : BDSInpaintingRings P σ) : InpaintState P σ :=
  let currentTargetMask := Mask.New.DeepCopyFrom self.TargetMask
  let currentImage := DeepCopy self.Image
  let currentPropagationMask :=
    (Mask.New.DeepCopyFrom currentTargetMask).InvertData
  let expandedTargetMask :=
    (Mask.New.DeepCopyFrom self.TargetMask).ShrinkHole self.PatchRadius
  let outsideTargetMask := XORImages expandedTargetMask currentTargetMask
  { self with
    currentTargetMask := currentTargetMask
    currentImage := currentImage
    currentPropagationMask := currentPropagationMask
    expandedTargetMask := expandedTargetMask
    outsideTargetMask := outsideTargetMask
    nnField := NNField.Allocate currentImage.width currentImage.height
    acceptanceTest :=
      { RangeMin := 0, RangeMax := 1, PatchRadius := self.PatchRadius
        NeighborHistogramMultiplier := 2 }
    histogramMultiplier := histogramMultiplierInitial
    iteration := 0
    ringCounter := 0 }

/-- Lines 140-154 of `Inpaint`: the 1-pixel border of the stored source mask is
set to Hole, then `ExpandHole(PatchRadius)` is applied to it. -/
def conditionSourceMask (sourceMask : Mask) (patchRadius : Nat) : Mask :=
  let boundaryPixels := GetBoundaryPixels sourceMask.width sourceMask.height 1
  (SetPixels sourceMask boundaryPixels false).ExpandHole patchRadius

/-- Lines 109-204 of `Inpaint`: first propagation and PatchMatch run,
known-region initialisation, source-mask conditioning, random initialisation of
the ring, the first verification with multiplier `2.0f`, and the initial values
of `histogramMultiplier` and `iteration`. -/
def inpaintInitialize {P σ : Type} (col : Collaborators P σ) (s : InpaintState P σ) :
    InpaintState P σ :=
  let s1 := { s with nnField := col.Propagate s.acceptanceTest s.nnField }
  let s2 := { s1 with nnField := col.LocalCompute s1.PatchRadius s1.nnField }
  let s3 := { s2 with
    nnField := col.InitializeKnownRegion s2.SourceMask s2.PatchRadius s2.nnField }
  let s4 := { s3 with SourceMask := conditionSourceMask s3.SourceMask s3.PatchRadius }
  let s5 := { s4 with
    nnField := col.InitializeRandom s4.Image s4.outsideTargetMask s4.SourceMask
      s4.PatchRadius s4.nnField }
  let s6 := { s5 with
    nnField := col.Verify s5.currentImage s5.outsideTargetMask 2 s5.PatchRadius s5.nnField }
  { s6 with histogramMultiplier := histogramMultiplierInitial, iteration := 0 }

/-- The condition of the `while` of line 215: the count converts to `true` when nonzero. -/
def refineCondition {P σ : Type} (s : InpaintState P σ) : Bool :=
  CountTestedPixels s.nnField s.outsideTargetMask testNotVerifiedLambda != 0

/-- The body of the `while` of lines 215-233: one refinement round. The `+=` of
line 231 is a float addition and the `iteration++` of line 232 wraps. -/
def refineRound {P σ : Type} (col : Collaborators P σ) (s : InpaintState P σ) :
    InpaintState P σ :=
  let s1 := { s with
    acceptanceTest := s.acceptanceTest.SetNeighborHistogramMultiplier s.histogramMultiplier }
  let s2 := { s1 with PatchMatchFunctor := col.Compute s1.PatchMatchFunctor s1.nnField }
  let s3 := { s2 with nnField := DeepCopy (col.GetOutput s2.PatchMatchFunctor) }
  { s3 with
    histogramMultiplier := floatAdd s3.histogramMultiplier histogramMultiplierStep
    iteration := (s3.iteration + 1) % UINT_RANGE }

/-- The state after `k` consecutive refinement rounds. -/
def refineRounds {P σ : Type} (col : Collaborators P σ) : Nat → InpaintState P σ → InpaintState P σ
  | 0, s => s
  | k + 1, s => refineRounds col k (refineRound col s)

/-- The `while` of lines 215-233; `fuel` bounds the number of times the
condition is evaluated, and `none` means it was still true when fuel ran out. -/
def refineLoop {P σ : Type} (col : Collaborators P σ) :
    Nat → InpaintState P σ → Option (InpaintState P σ)
  | 0, _ => none
  | fuel + 1, s =>
      if refineCondition s then refineLoop col fuel (refineRound col s) else some s

/-- The thin boundary mask of lines 251-263: `FindBoundary` on the Valid side
with boundary value 255, turned into a mask with hole value 0 and valid value 255. -/
def ringBoundaryMask {P σ : Type} (conn : Connectivity) (s : InpaintState P σ) : Mask :=
  let boundaryValue := 255
  let boundaryImage := s.currentTargetMask.FindBoundary conn .VALID boundaryValue
  Mask.CreateFromImage boundaryImage 0 boundaryValue

/-- The body of the `while` of lines 242-294: one ring. -/
def ringIteration {P σ : Type} (conn : Connectivity) (col : Collaborators P σ)
    (s : InpaintState P σ) : InpaintState P σ :=
  let s1 := { s with
    currentPropagationMask :=
      (s.currentPropagationMask.DeepCopyFrom s.currentTargetMask).InvertData }
  let boundaryMask := ringBoundaryMask conn s1
  let s2 := { s1 with currentTargetMask := s1.currentTargetMask.DeepCopyFrom boundaryMask }
  let output := col.BDSInpaint s2.Image s2.PatchRadius boundaryMask s2.SourceMask
  let s3 := { s2 with currentImage := DeepCopy output }
  let kernelRadius := 1
  let s4 := { s3 with currentTargetMask := s3.currentTargetMask.ExpandHole kernelRadius }
  { s4 with ringCounter := (s4.ringCounter + 1) % UINT_RANGE }

/-- The state after `k` consecutive ring iterations. -/
def ringIterations {P σ : Type} (conn : Connectivity) (col : Collaborators P σ) :
    Nat → InpaintState P σ → InpaintState P σ
  | 0, s => s
  | k + 1, s => ringIterations conn col k (ringIteration conn col s)

/-- The `while` of lines 242-294; `fuel` bounds the number of times the
condition is evaluated, and `none` means it was still true when fuel ran out. -/
def ringPeelingLoop {P σ : Type} (conn : Connectivity) (col : Collaborators P σ) :
    Nat → InpaintState P σ → Option (InpaintState P σ)
  | 0, _ => none
  | fuel + 1, s =>
      if s.currentTargetMask.HasValidPixels then
        ringPeelingLoop conn col fuel (ringIteration conn col s)
      else some s

/-- Lines 238-296 of `Inpaint`, the statements that follow `exit(-1)`: the
ring-peeling loop and the copy of the working image into `Output`. -/
def inpaintRings {P σ : Type} (conn : Connectivity) (col : Collaborators P σ) (fuel : Nat)
    (s : InpaintState P σ) : Option (InpaintState P σ) :=
  (ringPeelingLoop conn col fuel { s with ringCounter := 0 }).map fun s1 =>
    { s1 with Output := DeepCopy s1.currentImage }

/-- How a call of `Inpaint` ends: the refinement loop is still running when the
fuel is spent, the process is ended by `exit`, or control returns to the caller. -/
inductive InpaintResult (P σ : Type) where
  | running
  | exited (status : Int) (s : InpaintState P σ)
  | returned (s : InpaintState P σ)

/-- `BDSInpaintingRings<TImage>::Inpaint`. After the refinement loop the source
calls `exit(-1)` (line 237), so the statements of `inpaintRings` are never
reached and no path returns to the caller. -/
def Inpaint {P σ : Type} (col : Collaborators P σ) (fuel : Nat)
    (self : BDSInpaintingRings P σ) : InpaintResult P σ :=
  match refineLoop col fuel (inpaintInitialize col (inpaintEntry self)) with
  | none => .running
  | some s => .exited (-1) s

/-! ## The driver -/

/-- `std::isspace` in the "C" locale. -/
def isspace (c : Char) : Bool :=
  c == ' ' || c == '\t' || c == '\n' || c == '\x0b' || c == '\x0c' || c == '\r'

/-- A `std::stringstream`: the unread characters and the fail bit. -/
structure StringStream where
  buffer : List Char
  fail : Bool

/-- Lines 57-61 of `main`: every argument after the program name is written to
the stream, followed by one blank. -/
def fillStream (argv : List String) : StringStream :=
  (argv.drop 1).foldl (fun ss a => { ss with buffer := ss.buffer ++ a.toList ++ [' '] })
    { buffer := [], fail := false }

/-- `ss >> str` for a `std::string`: nothing happens on a failed stream;
otherwise leading white space is skipped and the characters up to the next
white space are taken; taking none sets the fail bit and leaves `str` empty. -/
def extractString (ss : StringStream) (old : List Char) : StringStream × List Char :=
  if ss.fail then (ss, old)
  else
    let rest := ss.buffer.dropWhile isspace
    let token := rest.takeWhile fun c => !isspace c
    let rest1 := rest.dropWhile fun c => !isspace c
    if token.isEmpty then ({ buffer := rest1, fail := true }, [])
    else ({ buffer := rest1, fail := false }, token)

/-- Value of a run of decimal digits. -/
def digitsValue (ds : List Char) : Nat :=
  ds.foldl (fun acc c => 10 * acc + (c.toNat - '0'.toNat)) 0

/-- `ss >> n` for an `unsigned int` of 32 bits: nothing happens on a failed
stream; otherwise white space is skipped, an optional sign and the decimal
digits are read; without a digit the value is 0 and the fail bit is set, a value
that does not fit gives the largest value and the fail bit, and a minus sign
negates modulo 2^32. -/
def extractUnsigned (ss : StringStream) (old : Nat) : StringStream × Nat :=
  if ss.fail then (ss, old)
  else
    let rest := ss.buffer.dropWhile isspace
    let negative := rest.head? == some '-'
    let rest1 := if rest.head? == some '-' || rest.head? == some '+' then rest.drop 1 else rest
    let digits := rest1.takeWhile Char.isDigit
    let rest2 := rest1.dropWhile Char.isDigit
    if digits.isEmpty then ({ buffer := rest2, fail := true }, 0)
    else if digitsValue digits > 4294967295 then ({ buffer := rest2, fail := true }, 4294967295)
    else
      ({ buffer := rest2, fail := false },
        if negative then (4294967296 - digitsValue digits) % 4294967296 else digitsValue digits)

/-- The five locals `main` extracts from the stream. -/
structure ParsedArgs where
  imageFilename : List Char
  sourceMaskFilename : List Char
  targetMaskFilename : List Char
  patchRadius : Nat
  outputFilename : List Char

/-- Lines 63-69 of `main`: the strings start empty, `patchRadius` starts with the
indeterminate value `uninitialised`, and the five extractions run in order. -/
def parseArguments (uninitialised : Nat) (argv : List String) : ParsedArgs :=
  let ss0 := fillStream argv
  let r1 := extractString ss0 []
  let r2 := extractString r1.1 []
  let r3 := extractString r2.1 []
  let r4 := extractUnsigned r3.1 uninitialised
  let r5 := extractString r4.1 []
  { imageFilename := r1.2
    sourceMaskFilename := r2.2
    targetMaskFilename := r3.2
    patchRadius := r4.2
    outputFilename := r5.2 }

/-- What the driver depends on outside the controller: the file system, the
Poisson fill of lines 94-118, the configured PatchMatch functor of lines
123-148 and the value found in the uninitialised `patchRadius`. -/
structure DriverEnv (P σ : Type) where
  uninitialised : Nat
  readImage : List Char → Option (TImage P)
  readMask : List Char → Option Mask
  poissonFill : TImage P → Mask → TImage P
  newOutput : TImage P
  patchMatchFunctor : Nat → TImage P → σ
  collaborators : Collaborators P σ

/-- How the process ends. -/
inductive ProcessEnd where
  | running
  | exitStatus (status : Int)
  | uncaughtException
  deriving DecidableEq, Repr

/-- The value of `EXIT_FAILURE`. -/
def EXIT_FAILURE : Int := 1

/-- The value of `EXIT_SUCCESS`. -/
def EXIT_SUCCESS : Int := 0

/-- Observable record of one run of the driver. -/
structure DriverRun (P : Type) where
  finish : ProcessEnd
  parsed : Option ParsedArgs
  filesRequested : List (List Char)
  inpaintCalled : Bool
  outputWritten : Option (List Char × TImage P)

/-- Lines 94-166 of `main`: the image is Poisson filled in place, the target
mask is inverted ("PatchMatch requires that the target region be specified by
valid pixels") and the controller is configured. -/
def driverController {P σ : Type} (env : DriverEnv P σ) (a : ParsedArgs)
    (image : TImage P) (sourceMask targetMask : Mask) : BDSInpaintingRings P σ :=
  let image1 := env.poissonFill image targetMask
  let targetMask1 := targetMask.InvertData
  { Iterations := 1
    PatchRadius := a.patchRadius
    Output := env.newOutput
    Image := image1
    TargetMask := targetMask1
    SourceMask := sourceMask
    PatchMatchFunctor := env.patchMatchFunctor a.patchRadius image1 }

/-- `main(argc, argv)` with `argc = argv.length`; a reader that fails throws,
and nothing catches the exception. -/
def main {P σ : Type} (env : DriverEnv P σ) (fuel : Nat) (argv : List String) : DriverRun P :=
  if argv.length < 6 then
    { finish := .exitStatus EXIT_FAILURE, parsed := none, filesRequested := []
      inpaintCalled := false, outputWritten := none }
  else
    let a := parseArguments env.uninitialised argv
    match env.readImage a.imageFilename with
    | none =>
      { finish := .uncaughtException, parsed := some a, filesRequested := [a.imageFilename]
        inpaintCalled := false, outputWritten := none }
    | some image =>
    match env.readMask a.sourceMaskFilename with
    | none =>
      { finish := .uncaughtException, parsed := some a
        filesRequested := [a.imageFilename, a.sourceMaskFilename]
        inpaintCalled := false, outputWritten := none }
    | some sourceMask =>
    match env.readMask a.targetMaskFilename with
    | none =>
      { finish := .uncaughtException, parsed := some a
        filesRequested := [a.imageFilename, a.sourceMaskFilename, a.targetMaskFilename]
        inpaintCalled := false, outputWritten := none }
    | some targetMask =>
      let bdsInpainting := driverController env a image sourceMask targetMask
      let files := [a.imageFilename, a.sourceMaskFilename, a.targetMaskFilename]
      match Inpaint env.collaborators fuel bdsInpainting with
      | .running =>
        { finish := .running, parsed := some a, filesRequested := files
          inpaintCalled := true, outputWritten := none }
      | .exited status _ =>
        { finish := .exitStatus status, parsed := some a, filesRequested := files
          inpaintCalled := true, outputWritten := none }
      | .returned s1 =>
        { finish := .exitStatus EXIT_SUCCESS, parsed := some a, filesRequested := files
          inpaintCalled := true, outputWritten := some (a.outputFilename, s1.Output) }

/-! ## Definitions that follow the spec -/

/-- The error taxonomy of the spec's section 7. -/
inductive InpaintError where
  | ConfigurationError
  | ConvergenceWarning
  | DomainMismatch
  deriving DecidableEq, Repr

/-- The spec's `DomainMismatch` condition: the domain size of the target mask or
of the source mask differs from that of the image. -/
def domainMismatch {P σ : Type} (self : BDSInpaintingRings P σ) : Bool :=
  !(decide (self.TargetMask.width = self.Image.width) &&
    decide (self.TargetMask.height = self.Image.height) &&
    decide (self.SourceMask.width = self.Image.width) &&
    decide (self.SourceMask.height = self.Image.height))

/-- The controller as the spec's section 7 words it: a domain mismatch is a
fatal error reported at entry, before anything else happens; otherwise the call
proceeds as `Inpaint` does. -/
def specInpaintChecked {P σ : Type} (col : Collaborators P σ) (fuel : Nat)
    (self : BDSInpaintingRings P σ) : Except InpaintError (InpaintResult P σ) :=
  if domainMismatch self then .error .DomainMismatch else .ok (Inpaint col fuel self)

/-- An argument that survives the round trip through the stream as one token:
not empty and free of white space. -/
def isToken (a : String) : Bool :=
  !a.toList.isEmpty && a.toList.all fun c => !isspace c

/-- An argument that is a plain decimal number fitting an `unsigned int`. -/
def isNumber (a : String) : Bool :=
  !a.toList.isEmpty && a.toList.all Char.isDigit && decide (digitsValue a.toList ≤ 4294967295)

/-- A refinement round as the spec's section 4.4 words it: the multiplier of
the round is set, propagation and random search improve the field, and then the
Verifier is run over `outsideTargetMask` with that round's multiplier; the
counters advance as in the source. -/
def specRefineRound {P σ : Type} (col : Collaborators P σ) (s : InpaintState P σ) :
    InpaintState P σ :=
  let s1 := { s with
    acceptanceTest := s.acceptanceTest.SetNeighborHistogramMultiplier s.histogramMultiplier }
  let s2 := { s1 with PatchMatchFunctor := col.Compute s1.PatchMatchFunctor s1.nnField }
  let s3 := { s2 with nnField := DeepCopy (col.GetOutput s2.PatchMatchFunctor) }
  let s4 := { s3 with
    nnField := col.Verify s3.currentImage s3.outsideTargetMask
      s3.acceptanceTest.NeighborHistogramMultiplier s3.PatchRadius s3.nnField }
  { s4 with
    histogramMultiplier := floatAdd s4.histogramMultiplier histogramMultiplierStep
    iteration := (s4.iteration + 1) % UINT_RANGE }

/-! ## Concrete instances -/

/-- A 5 by 5 image of unit pixels. -/
def image5 : TImage Unit := { width := 5, height := 5, pixel := fun _ _ => () }

/-- A 5 by 5 mask whose Valid pixels are the central 3 by 3 square. -/
def centre3 : Mask :=
  { width := 5, height := 5
    valid := fun x y => decide (1 ≤ x) && decide (x ≤ 3) && decide (1 ≤ y) && decide (y ≤ 3) }

/-- A 5 by 5 mask that is Valid everywhere. -/
def allValid5 : Mask := { width := 5, height := 5, valid := fun _ _ => true }

/-- Mark every entry of a field as verified. -/
def verifyAll (f : NNField) : NNField :=
  { f with entry := fun x y => { f.entry x y with Verified := true } }

/-- Collaborators that leave the field alone, except that the random
initialiser marks the entries under its target mask as not verified and the
member PatchMatch functor verifies every entry; the functor state is its
output field. -/
def verifyingCollaborators : Collaborators Unit NNField :=
  { Propagate := fun _ f => f
    LocalCompute := fun _ f => f
    InitializeKnownRegion := fun _ _ f => f
    InitializeRandom := fun _ target _ _ f =>
      { f with entry := fun x y =>
          if target.valid x y then { f.entry x y with Verified := false } else f.entry x y }
    Verify := fun _ _ _ _ f => f
    Compute := fun _ f => verifyAll f
    GetOutput := fun f => f
    BDSInpaint := fun image _ _ _ => image }

/-- Collaborators that never change the field: no entry is ever verified. -/
def idleCollaborators : Collaborators Unit NNField :=
  { verifyingCollaborators with Compute := fun _ f => f }

/-- A controller on the 5 by 5 image: the target region is the central square,
the source mask is Valid everywhere and the patch radius is 1. -/
def controller5 : BDSInpaintingRings Unit NNField :=
  { Iterations := 1
    PatchRadius := 1
    Output := { width := 0, height := 0, pixel := fun _ _ => () }
    Image := image5
    TargetMask := centre3
    SourceMask := allValid5
    PatchMatchFunctor := NNField.Allocate 0 0 }

/-- The state of `controller5` on entry to the refinement loop. -/
def refineStart5 (col : Collaborators Unit NNField) : InpaintState Unit NNField :=
  inpaintInitialize col (inpaintEntry controller5)

/-- The round bound the spec's section 8.5 gives for a multiplier cap:
`ceil((multiplierCap - initialMultiplier) / step)`. -/
def specRoundBound (multiplierCap : ℚ) : Nat :=
  Nat.ceil ((multiplierCap - histogramMultiplierInitial) / histogramMultiplierStep)

/-- The state of `controller5` on entry to the ring-peeling loop taken on its
own: `currentTargetMask` is the target mask, whose Valid pixels are the region
still to fill. -/
def ringStart5 : InpaintState Unit NNField := inpaintEntry controller5

/-- The 5 by 5 controller with a 3 by 3 source mask: a domain mismatch. -/
def mismatched5 : BDSInpaintingRings Unit NNField :=
  { controller5 with SourceMask := { width := 3, height := 3, valid := fun _ _ => true } }

/-- An environment in which every image file holds the 5 by 5 image and every
mask file the mask `centre3`, with the verifying collaborators. -/
def env5 : DriverEnv Unit NNField :=
  { uninitialised := 0
    readImage := fun _ => some image5
    readMask := fun _ => some centre3
    poissonFill := fun image _ => image
    newOutput := { width := 0, height := 0, pixel := fun _ => fun _ => () }
    patchMatchFunctor := fun _ _ => NNField.Allocate 0 0
    collaborators := verifyingCollaborators }

/-- A command line with the five arguments. -/
def argv5 : List String :=
  ["BDSInpaintingRings", "image.png", "source.mask", "target.mask", "1", "out.png"]

/-- A command line whose image path contains a blank. -/
def argvBlank : List String :=
  ["BDSInpaintingRings", "my image.png", "source.mask", "target.mask", "3", "out.png"]

/-- A verifier that accepts every entry under its mask once the multiplier has
reached 2.2, and none before. -/
def verifyAbove (mask : Mask) (multiplier : ℚ) (f : NNField) : NNField :=
  { f with entry := fun x y =>
      if mask.valid x y && decide ((11 / 5 : ℚ) ≤ multiplier) then
        { f.entry x y with Verified := true }
      else f.entry x y }

/-- Collaborators whose member PatchMatch functor leaves the field alone and
whose verifier is `verifyAbove`. -/
def thresholdCollaborators : Collaborators Unit NNField :=
  { verifyingCollaborators with
    Compute := fun _ f => f
    Verify := fun _ mask multiplier _ f => verifyAbove mask multiplier f }

/-! ## Raster lemmas -/

theorem mem_pixelsOf (width height x y : Nat) :
    (x, y) ∈ pixelsOf width height ↔ x < width ∧ y < height := by
  simp only [pixelsOf, List.mem_flatMap, List.mem_range, List.mem_map, Prod.mk.injEq]
  constructor
  · rintro ⟨j, hj, i, hi, rfl, rfl⟩
    exact ⟨hi, hj⟩
  · rintro ⟨hx, hy⟩
    exact ⟨y, hy, x, hx, rfl, rfl⟩

theorem CountTestedPixels_eq_zero_iff (nnField : NNField) (mask : Mask) (test : Match → Bool) :
    CountTestedPixels nnField mask test = 0 ↔
      ∀ x y, x < nnField.width → y < nnField.height → mask.valid x y = true →
        test (nnField.entry x y) = false := by
  unfold CountTestedPixels
  rw [List.countP_eq_zero]
  constructor
  · intro h x y hx hy hv
    have := h (x, y) ((mem_pixelsOf _ _ _ _).2 ⟨hx, hy⟩)
    simpa [hv] using this
  · rintro h ⟨x, y⟩ hp
    obtain ⟨hx, hy⟩ := (mem_pixelsOf _ _ _ _).1 hp
    have := h x y hx hy
    cases hv : mask.valid x y <;> simp_all

theorem testNotVerifiedLambda_eq (q : Match) : testNotVerifiedLambda q = !q.Verified := by
  unfold testNotVerifiedLambda
  cases q.Verified <;> rfl

theorem refineCondition_eq_false_iff {P σ : Type} (s : InpaintState P σ) :
    refineCondition s = false ↔
      CountTestedPixels s.nnField s.outsideTargetMask testNotVerifiedLambda = 0 := by
  simp [refineCondition]

theorem refineLoop_exit {P σ : Type} (col : Collaborators P σ) :
    ∀ (fuel : Nat) (s s1 : InpaintState P σ),
      refineLoop col fuel s = some s1 → refineCondition s1 = false := by
  intro fuel
  induction fuel with
  | zero => intro s s1 h; simp [refineLoop] at h
  | succ n ih =>
    intro s s1 h
    unfold refineLoop at h
    by_cases hc : refineCondition s = true
    · rw [if_pos hc] at h
      exact ih _ _ h
    · rw [if_neg hc] at h
      cases h
      simpa using hc

theorem refineLoop_ring {P σ : Type} (col : Collaborators P σ) :
    ∀ (fuel : Nat) (s s1 : InpaintState P σ),
      refineLoop col fuel s = some s1 → s1.outsideTargetMask = s.outsideTargetMask := by
  intro fuel
  induction fuel with
  | zero => intro s s1 h; simp [refineLoop] at h
  | succ n ih =>
    intro s s1 h
    unfold refineLoop at h
    by_cases hc : refineCondition s = true
    · rw [if_pos hc] at h
      exact ih (refineRound col s) s1 h
    · rw [if_neg hc] at h
      cases h
      rfl

/-! ## C1: postcondition of the Verify-Refine loop -/

/-- C1. The refinement loop of `Inpaint` runs another round exactly when some
pixel of the field under `outsideTargetMask` has `Verified = false`; with a
count of 0 on entry it performs no round and returns the state unchanged; and
whenever it exits, the ring mask is the one it started with, the count of
unverified entries under it is 0 and every pixel of the field under the ring
mask is verified. This holds for every state (field, ring mask) and every
behaviour of the collaborators. -/
theorem refineLoop_postcondition {P σ : Type} (col : Collaborators P σ)
    (s : InpaintState P σ) (fuel : Nat) :
    (refineCondition s = true ↔
      ∃ x y, x < s.nnField.width ∧ y < s.nnField.height ∧
        s.outsideTargetMask.valid x y = true ∧ (s.nnField.entry x y).Verified = false) ∧
    (refineCondition s = true →
      refineLoop col (fuel + 1) s = refineLoop col fuel (refineRound col s)) ∧
    (CountTestedPixels s.nnField s.outsideTargetMask testNotVerifiedLambda = 0 →
      refineLoop col (fuel + 1) s = some s) ∧
    (∀ s1, refineLoop col fuel s = some s1 →
      s1.outsideTargetMask = s.outsideTargetMask ∧
      CountTestedPixels s1.nnField s1.outsideTargetMask testNotVerifiedLambda = 0 ∧
      ∀ x y, x < s1.nnField.width → y < s1.nnField.height →
        s1.outsideTargetMask.valid x y = true → (s1.nnField.entry x y).Verified = true) := by
  refine ⟨?_, ?_, ?_, ?_⟩
  · rw [← Bool.not_eq_false, refineCondition_eq_false_iff, CountTestedPixels_eq_zero_iff]
    simp only [testNotVerifiedLambda_eq]
    push_neg
    constructor
    · rintro ⟨x, y, hx, hy, hv, ht⟩
      exact ⟨x, y, hx, hy, hv, by simpa using ht⟩
    · rintro ⟨x, y, hx, hy, hv, ht⟩
      exact ⟨x, y, hx, hy, hv, by simp [ht]⟩
  · intro hc
    rw [refineLoop, if_pos hc]
  · intro h0
    have hc : ¬ refineCondition s = true := by
      rw [Bool.not_eq_true, refineCondition_eq_false_iff]
      exact h0
    rw [refineLoop, if_neg hc]
  · intro s1 h
    have hc := (refineCondition_eq_false_iff s1).1 (refineLoop_exit col fuel s s1 h)
    refine ⟨refineLoop_ring col fuel s s1 h, hc, ?_⟩
    intro x y hx hy hv
    have := (CountTestedPixels_eq_zero_iff _ _ _).1 hc x y hx hy hv
    simpa [testNotVerifiedLambda_eq] using this

/-- Witness for C1: on the 5 by 5 controller with a functor that verifies every
entry the loop runs one round and exits with a count of 0. -/
theorem refineLoop_postcondition_witness :
    refineCondition (refineStart5 verifyingCollaborators) = true ∧
    refineLoop verifyingCollaborators 2 (refineStart5 verifyingCollaborators) =
      some (refineRound verifyingCollaborators (refineStart5 verifyingCollaborators)) ∧
    CountTestedPixels
      (refineRound verifyingCollaborators (refineStart5 verifyingCollaborators)).nnField
      (refineRound verifyingCollaborators (refineStart5 verifyingCollaborators)).outsideTargetMask
      testNotVerifiedLambda = 0 :=
  have h1 : refineCondition (refineStart5 verifyingCollaborators) = true := by decide
  have h2 : CountTestedPixels
      (refineRound verifyingCollaborators (refineStart5 verifyingCollaborators)).nnField
      (refineRound verifyingCollaborators (refineStart5 verifyingCollaborators)).outsideTargetMask
      testNotVerifiedLambda = 0 := by decide
  have h3 := ((refineLoop_postcondition verifyingCollaborators
      (refineStart5 verifyingCollaborators) 1).2.1 h1).trans
    ((refineLoop_postcondition verifyingCollaborators
      (refineRound verifyingCollaborators (refineStart5 verifyingCollaborators)) 0).2.2.1 h2)
  ⟨h1, h3, ((refineLoop_postcondition verifyingCollaborators
      (refineStart5 verifyingCollaborators) 2).2.2.2 _ h3).2.1⟩

/-! ## C2: the Verify-Refine loop has no round bound -/

theorem refineRounds_succ {P σ : Type} (col : Collaborators P σ) (k : Nat)
    (s : InpaintState P σ) :
    refineRounds col (k + 1) s = refineRounds col k (refineRound col s) := rfl

theorem refineLoop_eq_some_iff {P σ : Type} (col : Collaborators P σ) :
    ∀ (fuel : Nat) (s s1 : InpaintState P σ),
      refineLoop col fuel s = some s1 ↔
        ∃ n, n < fuel ∧ (∀ k, k < n → refineCondition (refineRounds col k s) = true) ∧
          refineCondition (refineRounds col n s) = false ∧ s1 = refineRounds col n s := by
  intro fuel
  induction fuel with
  | zero => intro s s1; simp [refineLoop]
  | succ m ih =>
    intro s s1
    unfold refineLoop
    by_cases hc : refineCondition s = true
    · rw [if_pos hc, ih]
      constructor
      · rintro ⟨n, hn, hall, hex, heq⟩
        refine ⟨n + 1, by omega, ?_, hex, heq⟩
        intro k hk
        cases k with
        | zero => exact hc
        | succ j => exact hall j (by omega)
      · rintro ⟨n, hn, hall, hex, heq⟩
        cases n with
        | zero =>
          have : refineCondition s = false := hex
          rw [hc] at this
          cases this
        | succ j =>
          exact ⟨j, by omega, fun k hk => hall (k + 1) (by omega), hex, heq⟩
    · rw [if_neg hc]
      have hf : refineCondition s = false := by simpa using hc
      constructor
      · intro h
        cases h
        exact ⟨0, by omega, fun k hk => absurd hk (Nat.not_lt_zero k), hf, rfl⟩
      · rintro ⟨n, hn, hall, hex, heq⟩
        cases n with
        | zero => rw [heq]; rfl
        | succ j => exact absurd (hall 0 (by omega)) hc

theorem refineLoop_eq_none_of_forall {P σ : Type} (col : Collaborators P σ)
    (s : InpaintState P σ) (h : ∀ k, refineCondition (refineRounds col k s) = true)
    (fuel : Nat) : refineLoop col fuel s = none := by
  cases hr : refineLoop col fuel s with
  | none => rfl
  | some s1 =>
    obtain ⟨n, _, _, hex, _⟩ := (refineLoop_eq_some_iff col fuel s s1).1 hr
    rw [h n] at hex
    cases hex

theorem idle_refineCondition (k : Nat) :
    refineCondition (refineRounds idleCollaborators k (refineStart5 idleCollaborators)) = true := by
  have key : ∀ (k : Nat) (s : InpaintState Unit NNField),
      refineCondition (refineRounds idleCollaborators k s) = refineCondition s := by
    intro k
    induction k with
    | zero => intro s; rfl
    | succ j ih => intro s; rw [refineRounds_succ, ih]; rfl
  rw [key]
  decide

/-- Counterexample to C2: for the collaborator that never verifies a pixel, on
the 5 by 5 controller, there is no multiplier cap whose round bound
`ceil((cap - 2) / 0.2)` the loop meets: it has not exited after any number of
rounds. -/
theorem refineLoop_bound_counterexample :
    ¬ ∃ (multiplierCap : ℚ) (n : Nat), n ≤ specRoundBound multiplierCap ∧
      (refineLoop idleCollaborators (n + 1) (refineStart5 idleCollaborators)).isSome = true := by
  rintro ⟨_, n, _, h⟩
  rw [refineLoop_eq_none_of_forall idleCollaborators _ idle_refineCondition] at h
  cases h

/-- C2 (amended). The loop has no round bound and no multiplier cap: it exits
exactly when some round count `n` is the first at which no ring pixel is
unverified, after exactly `n` rounds and in the state those rounds produce;
and when the collaborator never brings the count of unverified ring pixels to
0, the loop has not exited after any number of rounds. -/
theorem refineLoop_rounds {P σ : Type} (col : Collaborators P σ) (s : InpaintState P σ) :
    (∀ fuel s1, refineLoop col fuel s = some s1 ↔
      ∃ n, n < fuel ∧ (∀ k, k < n → refineCondition (refineRounds col k s) = true) ∧
        refineCondition (refineRounds col n s) = false ∧ s1 = refineRounds col n s) ∧
    ((∀ k, refineCondition (refineRounds col k s) = true) →
      ∀ fuel, refineLoop col fuel s = none) :=
  ⟨fun fuel s1 => refineLoop_eq_some_iff col fuel s s1,
    fun h fuel => refineLoop_eq_none_of_forall col s h fuel⟩

/-- Witness for C2 (amended): with the functor that verifies every entry the
loop exits after exactly one round; with the functor that verifies nothing it
is still running after 100 evaluations of its condition. -/
theorem refineLoop_rounds_witness :
    refineLoop verifyingCollaborators 2 (refineStart5 verifyingCollaborators) =
      some (refineRounds verifyingCollaborators 1 (refineStart5 verifyingCollaborators)) ∧
    refineLoop idleCollaborators 100 (refineStart5 idleCollaborators) = none :=
  ⟨((refineLoop_rounds verifyingCollaborators (refineStart5 verifyingCollaborators)).1 2 _).2
      ⟨1, by decide, fun k hk => by
        have hk0 : k = 0 := by omega
        subst hk0
        decide, by decide, rfl⟩,
    (refineLoop_rounds idleCollaborators (refineStart5 idleCollaborators)).2
      idle_refineCondition 100⟩

/-! ## C3: the ring-peeling loop -/

theorem adjacent_inPatch (conn : Connectivity) (x y i j : Nat)
    (h : adjacent conn x y i j = true) : inPatch 1 x y i j = true := by
  cases conn with
  | eight =>
    simp only [adjacent, Bool.and_eq_true] at h
    exact h.1
  | four =>
    simp only [adjacent, inPatch, Bool.or_eq_true, Bool.and_eq_true, decide_eq_true_eq] at h ⊢
    omega

theorem ringBoundaryMask_valid {P σ : Type} (conn : Connectivity) (s : InpaintState P σ)
    (x y : Nat) :
    (ringBoundaryMask conn s).valid x y = true ↔
      s.currentTargetMask.valid x y = true ∧
        ∃ i j, i < s.currentTargetMask.width ∧ j < s.currentTargetMask.height ∧
          adjacent conn x y i j = true ∧ s.currentTargetMask.valid i j = false := by
  simp only [ringBoundaryMask, Mask.CreateFromImage, Mask.FindBoundary, decide_eq_true_eq]
  constructor
  · intro h
    split at h
    · rename_i hc
      simp only [Bool.and_eq_true, List.any_eq_true, Bool.not_eq_true', Prod.exists] at hc
      obtain ⟨hv, i, j, hm, ha, hh⟩ := hc
      obtain ⟨hi, hj⟩ := (mem_pixelsOf _ _ _ _).1 hm
      exact ⟨hv, i, j, hi, hj, ha, hh⟩
    · cases h
  · rintro ⟨hv, i, j, hi, hj, ha, hh⟩
    rw [if_pos]
    simp only [Bool.and_eq_true, List.any_eq_true, Bool.not_eq_true', Prod.exists]
    exact ⟨hv, i, j, (mem_pixelsOf _ _ _ _).2 ⟨hi, hj⟩, ha, hh⟩

theorem ringBoundaryMask_region {P σ : Type} (conn : Connectivity) (s : InpaintState P σ) :
    (ringBoundaryMask conn s).width = s.currentTargetMask.width ∧
      (ringBoundaryMask conn s).height = s.currentTargetMask.height := ⟨rfl, rfl⟩

theorem ringIteration_currentTargetMask {P σ : Type} (conn : Connectivity)
    (col : Collaborators P σ) (s : InpaintState P σ) :
    (ringIteration conn col s).currentTargetMask = (ringBoundaryMask conn s).ExpandHole 1 := rfl

theorem ringIteration_no_valid {P σ : Type} (conn : Connectivity) (col : Collaborators P σ)
    (s : InpaintState P σ) (x y : Nat) :
    (ringIteration conn col s).currentTargetMask.valid x y = false := by
  rw [ringIteration_currentTargetMask]
  by_contra hne
  have h : ((ringBoundaryMask conn s).ExpandHole 1).valid x y = true := by simpa using hne
  simp only [Mask.ExpandHole, Bool.and_eq_true, List.all_eq_true, Bool.or_eq_true,
    Bool.not_eq_true'] at h
  obtain ⟨hB, hall⟩ := h
  obtain ⟨_, i, j, hi, hj, ha, hh⟩ := (ringBoundaryMask_valid conn s x y).1 hB
  have hm : (i, j) ∈ pixelsOf (ringBoundaryMask conn s).width (ringBoundaryMask conn s).height :=
    (mem_pixelsOf _ _ _ _).2 ⟨hi, hj⟩
  rcases hall (i, j) hm with hp | hv
  · rw [adjacent_inPatch conn x y i j ha] at hp
    cases hp
  · have := ((ringBoundaryMask_valid conn s i j).1 hv).1
    rw [hh] at this
    cases this

theorem ringIteration_HasValidPixels {P σ : Type} (conn : Connectivity)
    (col : Collaborators P σ) (s : InpaintState P σ) :
    (ringIteration conn col s).currentTargetMask.HasValidPixels = false := by
  unfold Mask.HasValidPixels
  rw [List.any_eq_false]
  rintro ⟨x, y⟩ _
  simp [ringIteration_no_valid]

/-- C3 (the code at the failing input, and in general). For either connectivity
and every collaborator the ring-peeling loop performs at most one iteration:
after the first one `currentTargetMask` has no Valid pixel, since it is the
thin ring with its hole expanded by 1. On the 5 by 5 mask whose region to fill
is the central 3 by 3 square, the loop stops after one iteration and the centre
pixel (2, 2), which is to be filled, is not in the boundary mask handed to the
inner routine. -/
theorem ringPeelingLoop_single_ring (conn : Connectivity) :
    (∀ (P σ : Type) (col : Collaborators P σ) (s : InpaintState P σ) (fuel : Nat),
      ringPeelingLoop conn col (fuel + 2) s =
        some (if s.currentTargetMask.HasValidPixels then ringIteration conn col s else s)) ∧
    (∀ (P σ : Type) (col : Collaborators P σ) (s : InpaintState P σ) (x y : Nat),
      (ringIteration conn col s).currentTargetMask.valid x y = false) ∧
    ringStart5.currentTargetMask.valid 2 2 = true ∧
    (ringBoundaryMask conn ringStart5).valid 2 2 = false ∧
    ringPeelingLoop conn verifyingCollaborators 2 ringStart5 =
      some (ringIteration conn verifyingCollaborators ringStart5) ∧
    (ringIteration conn verifyingCollaborators ringStart5).ringCounter = 1 := by
  have hloop : ∀ (P σ : Type) (col : Collaborators P σ) (s : InpaintState P σ) (fuel : Nat),
      ringPeelingLoop conn col (fuel + 2) s =
        some (if s.currentTargetMask.HasValidPixels then ringIteration conn col s else s) := by
    intro P σ col s fuel
    by_cases hc : s.currentTargetMask.HasValidPixels = true
    · rw [ringPeelingLoop, if_pos hc, if_pos hc, ringPeelingLoop,
        ringIteration_HasValidPixels]
      rfl
    · rw [ringPeelingLoop, if_neg hc, if_neg hc]
  refine ⟨hloop, fun P σ col s x y => ringIteration_no_valid conn col s x y, by decide, ?_, ?_, rfl⟩
  · cases conn <;> decide
  · rw [hloop]
    have : ringStart5.currentTargetMask.HasValidPixels = true := by decide
    rw [if_pos this]

/-! ## C4: conditioning of the source mask -/

theorem mem_GetBoundaryPixels_one (width height x y : Nat) :
    (x, y) ∈ GetBoundaryPixels width height 1 ↔
      (x < width ∧ y < height) ∧ (x = 0 ∨ y = 0 ∨ width ≤ x + 1 ∨ height ≤ y + 1) := by
  simp only [GetBoundaryPixels, List.mem_filter, mem_pixelsOf, Bool.or_eq_true,
    decide_eq_true_eq, Nat.lt_one_iff]
  tauto

theorem SetPixels_hole_valid (m : Mask) (pixels : List (Nat × Nat)) (x y : Nat) :
    (SetPixels m pixels false).valid x y = true ↔ (x, y) ∉ pixels ∧ m.valid x y = true := by
  simp only [SetPixels]
  by_cases h : (x, y) ∈ pixels
  · simp [h]
  · simp [h]

theorem ExpandHole_valid (m : Mask) (k x y : Nat) :
    (m.ExpandHole k).valid x y = true ↔
      m.valid x y = true ∧
        ∀ i j, i < m.width → j < m.height → inPatch k x y i j = true → m.valid i j = true := by
  simp only [Mask.ExpandHole, Bool.and_eq_true, List.all_eq_true, Bool.or_eq_true,
    Bool.not_eq_true']
  constructor
  · rintro ⟨hv, hall⟩
    refine ⟨hv, fun i j hi hj hp => ?_⟩
    rcases hall (i, j) ((mem_pixelsOf _ _ _ _).2 ⟨hi, hj⟩) with h | h
    · rw [hp] at h
      cases h
    · exact h
  · rintro ⟨hv, hall⟩
    refine ⟨hv, ?_⟩
    rintro ⟨i, j⟩ hm
    obtain ⟨hi, hj⟩ := (mem_pixelsOf _ _ _ _).1 hm
    cases hp : inPatch k x y i j
    · exact Or.inl rfl
    · exact Or.inr (hall i j hi hj hp)

theorem inPatch_iff (k x y i j : Nat) :
    inPatch k x y i j = true ↔ x ≤ i + k ∧ i ≤ x + k ∧ y ≤ j + k ∧ j ≤ y + k := by
  simp only [inPatch, Bool.and_eq_true, decide_eq_true_eq]
  tauto

theorem patchInRegion_iff (width height k x y : Nat) :
    patchInRegion width height k x y = true ↔
      k ≤ x ∧ x + k < width ∧ k ≤ y ∧ y + k < height := by
  simp only [patchInRegion, Bool.and_eq_true, decide_eq_true_eq]
  tauto

/-- C4. After lines 146-153 (the 1-pixel border of the source mask set to Hole,
then `ExpandHole(r)`), every pixel of the region that is still Valid has its
whole square patch of radius `r` inside the image region, and every pixel of
that patch was Valid in the source mask before conditioning; and a pixel that
was Hole before is Hole afterwards. -/
theorem conditionSourceMask_interior (m : Mask) (r x y : Nat) :
    (x < m.width → y < m.height → (conditionSourceMask m r).valid x y = true →
      patchInRegion m.width m.height r x y = true ∧
        ∀ i j, inPatch r x y i j = true → i < m.width ∧ j < m.height ∧ m.valid i j = true) ∧
    (m.valid x y = false → (conditionSourceMask m r).valid x y = false) := by
  have hcond : ∀ a b, (conditionSourceMask m r).valid a b = true ↔
      ((a, b) ∉ GetBoundaryPixels m.width m.height 1 ∧ m.valid a b = true) ∧
        ∀ i j, i < m.width → j < m.height → inPatch r a b i j = true →
          (i, j) ∉ GetBoundaryPixels m.width m.height 1 ∧ m.valid i j = true := by
    intro a b
    unfold conditionSourceMask
    rw [ExpandHole_valid]
    simp only [SetPixels_hole_valid]
    rfl
  constructor
  · intro hx hy hv
    obtain ⟨⟨_, _⟩, hall⟩ := (hcond x y).1 hv
    have hr1 : r ≤ x := by
      by_contra hlt
      have := (hall 0 y (by omega) hy ((inPatch_iff _ _ _ _ _).2 (by omega))).1
      exact this ((mem_GetBoundaryPixels_one _ _ _ _).2 ⟨⟨by omega, hy⟩, Or.inl rfl⟩)
    have hr2 : x + r < m.width := by
      by_contra hlt
      have := (hall (m.width - 1) y (by omega) hy ((inPatch_iff _ _ _ _ _).2 (by omega))).1
      exact this ((mem_GetBoundaryPixels_one _ _ _ _).2
        ⟨⟨by omega, hy⟩, Or.inr (Or.inr (Or.inl (by omega)))⟩)
    have hr3 : r ≤ y := by
      by_contra hlt
      have := (hall x 0 hx (by omega) ((inPatch_iff _ _ _ _ _).2 (by omega))).1
      exact this ((mem_GetBoundaryPixels_one _ _ _ _).2 ⟨⟨hx, by omega⟩, Or.inr (Or.inl rfl)⟩)
    have hr4 : y + r < m.height := by
      by_contra hlt
      have := (hall x (m.height - 1) hx (by omega) ((inPatch_iff _ _ _ _ _).2 (by omega))).1
      exact this ((mem_GetBoundaryPixels_one _ _ _ _).2
        ⟨⟨hx, by omega⟩, Or.inr (Or.inr (Or.inr (by omega)))⟩)
    refine ⟨(patchInRegion_iff _ _ _ _ _).2 ⟨hr1, hr2, hr3, hr4⟩, fun i j hp => ?_⟩
    have hp1 := (inPatch_iff _ _ _ _ _).1 hp
    have hi : i < m.width := by omega
    have hj : j < m.height := by omega
    exact ⟨hi, hj, (hall i j hi hj hp).2⟩
  · intro hh
    by_contra hne
    have hv : (conditionSourceMask m r).valid x y = true := by simpa using hne
    have := ((hcond x y).1 hv).1.2
    rw [hh] at this
    cases this

/-- Witness for C4: in the 5 by 5 all-Valid source mask conditioned with radius
1 the centre pixel stays Valid, and its patch is interior and was all Valid. -/
theorem conditionSourceMask_interior_witness :
    (conditionSourceMask allValid5 1).valid 2 2 = true ∧
    patchInRegion allValid5.width allValid5.height 1 2 2 = true ∧
    (∀ i j, inPatch 1 2 2 i j = true →
      i < allValid5.width ∧ j < allValid5.height ∧ allValid5.valid i j = true) ∧
    (conditionSourceMask centre3 1).valid 0 0 = false :=
  ⟨by decide,
    ((conditionSourceMask_interior allValid5 1 2 2).1 (by decide) (by decide) (by decide)).1,
    ((conditionSourceMask_interior allValid5 1 2 2).1 (by decide) (by decide) (by decide)).2,
    (conditionSourceMask_interior centre3 1 0 0).2 (by decide)⟩

/-! ## C5: the annulus outside the target region -/

theorem ShrinkHole_valid (m : Mask) (k x y : Nat) :
    (m.ShrinkHole k).valid x y = true ↔
      m.valid x y = true ∨
        ∃ i j, i < m.width ∧ j < m.height ∧ inPatch k x y i j = true ∧ m.valid i j = true := by
  simp only [Mask.ShrinkHole, Bool.or_eq_true, List.any_eq_true, Bool.and_eq_true, Prod.exists]
  constructor
  · rintro (h | ⟨i, j, hm, hp, hv⟩)
    · exact Or.inl h
    · obtain ⟨hi, hj⟩ := (mem_pixelsOf _ _ _ _).1 hm
      exact Or.inr ⟨i, j, hi, hj, hp, hv⟩
  · rintro (h | ⟨i, j, hi, hj, hp, hv⟩)
    · exact Or.inl h
    · exact Or.inr ⟨i, j, (mem_pixelsOf _ _ _ _).2 ⟨hi, hj⟩, hp, hv⟩

/-- C5. The `outsideTargetMask` of lines 71-79, `XOR(ShrinkHole(T, r), T)`, is
Valid at a pixel exactly when that pixel is Hole in `T` and its square patch of
radius `r` contains a pixel of the region that is Valid in `T`. Hence it is
Hole wherever `T` is Valid, and it is Hole everywhere when `r = 0`. -/
theorem outsideTargetMask_annulus {P σ : Type} (self : BDSInpaintingRings P σ) (x y : Nat) :
    ((inpaintEntry self).outsideTargetMask.valid x y = true ↔
      self.TargetMask.valid x y = false ∧
        ∃ i j, i < self.TargetMask.width ∧ j < self.TargetMask.height ∧
          inPatch self.PatchRadius x y i j = true ∧ self.TargetMask.valid i j = true) ∧
    (self.TargetMask.valid x y = true → (inpaintEntry self).outsideTargetMask.valid x y = false) ∧
    (self.PatchRadius = 0 → (inpaintEntry self).outsideTargetMask.valid x y = false) := by
  have hx : (inpaintEntry self).outsideTargetMask.valid x y =
      xor ((self.TargetMask.ShrinkHole self.PatchRadius).valid x y)
        (self.TargetMask.valid x y) := rfl
  have hiff : (inpaintEntry self).outsideTargetMask.valid x y = true ↔
      self.TargetMask.valid x y = false ∧
        ∃ i j, i < self.TargetMask.width ∧ j < self.TargetMask.height ∧
          inPatch self.PatchRadius x y i j = true ∧ self.TargetMask.valid i j = true := by
    rw [hx]
    have hs := ShrinkHole_valid self.TargetMask self.PatchRadius x y
    cases hT : self.TargetMask.valid x y
    · cases hS : (self.TargetMask.ShrinkHole self.PatchRadius).valid x y
      · simp only [Bool.xor_false, Bool.false_eq_true, true_and, false_iff]
        intro hex
        rw [hS, hT] at hs
        exact absurd (hs.2 (Or.inr hex)) (by simp)
      · simp only [Bool.xor_false, true_and, true_iff]
        rw [hS, hT] at hs
        rcases hs.1 rfl with h | h
        · cases h
        · exact h
    · have hS : (self.TargetMask.ShrinkHole self.PatchRadius).valid x y = true := by
        rw [hs]
        exact Or.inl hT
      simp [hS]
  refine ⟨hiff, ?_, ?_⟩
  · intro hv
    cases ho : (inpaintEntry self).outsideTargetMask.valid x y
    · rfl
    · have := (hiff.1 ho).1
      rw [hv] at this
      cases this
  · intro hr
    cases ho : (inpaintEntry self).outsideTargetMask.valid x y
    · rfl
    · obtain ⟨hh, i, j, _, _, hp, hv⟩ := hiff.1 ho
      rw [hr] at hp
      have := (inPatch_iff _ _ _ _ _).1 hp
      have hi : i = x := by omega
      have hj : j = y := by omega
      rw [hi, hj, hh] at hv
      cases hv

/-- Witness for C5: on the 5 by 5 controller the centre pixel, Valid in the
target mask, is Hole in the annulus, as is any pixel with patch radius 0. -/
theorem outsideTargetMask_annulus_witness :
    (inpaintEntry controller5).outsideTargetMask.valid 2 2 = false ∧
    (inpaintEntry { controller5 with PatchRadius := 0 }).outsideTargetMask.valid 0 1 = false ∧
    (inpaintEntry controller5).outsideTargetMask.valid 0 1 = true :=
  ⟨(outsideTargetMask_annulus controller5 2 2).2.1 (by decide),
    (outsideTargetMask_annulus { controller5 with PatchRadius := 0 } 0 1).2.2 rfl,
    by decide⟩

/-! ## C6: the threshold schedule -/

theorem roundHalfEven_ge_floor (t : ℚ) : ⌊t⌋ ≤ roundHalfEven t := by
  unfold roundHalfEven
  split_ifs <;> omega

theorem roundHalfEven_le_floor_succ (t : ℚ) : roundHalfEven t ≤ ⌊t⌋ + 1 := by
  unfold roundHalfEven
  split_ifs <;> omega

theorem roundHalfEven_up (t : ℚ) (f : ℤ) (h1 : (f : ℚ) + 1 / 2 < t) (h2 : t < f + 1) :
    roundHalfEven t = f + 1 := by
  have hf : ⌊t⌋ = f := by
    rw [Int.floor_eq_iff]
    constructor <;> linarith
  unfold roundHalfEven
  rw [hf]
  have h3 : ¬ (t - (f : ℚ) < 1 / 2) := by linarith
  have h4 : 1 / 2 < t - (f : ℚ) := by linarith
  rw [if_neg h3, if_pos h4]

theorem roundHalfEven_down (t : ℚ) (f : ℤ) (h1 : (f : ℚ) ≤ t) (h2 : t < f + 1 / 2) :
    roundHalfEven t = f := by
  have hf : ⌊t⌋ = f := by
    rw [Int.floor_eq_iff]
    constructor <;> linarith
  unfold roundHalfEven
  rw [hf]
  have h3 : t - (f : ℚ) < 1 / 2 := by linarith
  rw [if_pos h3]

theorem log_two_eq (q : ℚ) (n : ℤ) (hq : 0 < q) (h1 : (2 : ℚ) ^ n ≤ q) (h2 : q < 2 ^ (n + 1)) :
    Int.log 2 q = n := by
  have hb : 1 < 2 := by norm_num
  have c : ((2 : ℕ) : ℚ) = 2 := by norm_num
  have a1 : n ≤ Int.log 2 q := by
    rw [← Int.zpow_le_iff_le_log hb hq, c]
    exact h1
  have a2 : Int.log 2 q < n + 1 := by
    rw [← Int.lt_zpow_iff_log_lt hb hq, c]
    exact h2
  omega

theorem floatExponent_eq (q : ℚ) (n : ℤ) (hq : 0 < q) (hn : -126 ≤ n) (h1 : (2 : ℚ) ^ n ≤ q)
    (h2 : q < 2 ^ (n + 1)) : floatExponent q = n - 23 := by
  unfold floatExponent
  rw [abs_of_pos hq, log_two_eq q n hq h1 h2]
  omega

theorem roundToFloat_fifth : roundToFloat (1 / 5) = 13421773 / 67108864 := by
  have he : floatExponent (1 / 5 : ℚ) = -3 - 23 :=
    floatExponent_eq _ (-3) (by norm_num) (by norm_num) (by norm_num) (by norm_num)
  unfold roundToFloat
  rw [he, roundHalfEven_up _ 13421772 (by norm_num) (by norm_num)]
  norm_num

theorem roundToFloat_round1 :
    roundToFloat (2 + 13421773 / 67108864) = 9227469 / 4194304 := by
  have he : floatExponent (2 + 13421773 / 67108864 : ℚ) = 1 - 23 :=
    floatExponent_eq _ 1 (by norm_num) (by norm_num) (by norm_num) (by norm_num)
  unfold roundToFloat
  rw [he, roundHalfEven_up _ 9227468 (by norm_num) (by norm_num)]
  norm_num

theorem roundToFloat_stall :
    roundToFloat (4194304 + 13421773 / 67108864) = 4194304 := by
  have he : floatExponent (4194304 + 13421773 / 67108864 : ℚ) = 22 - 23 :=
    floatExponent_eq _ 22 (by norm_num) (by norm_num) (by norm_num) (by norm_num)
  unfold roundToFloat
  rw [he, roundHalfEven_down _ 8388608 (by norm_num) (by norm_num)]
  norm_num

theorem two_zpow_add_23 (e : ℤ) : (2 : ℚ) ^ (e + 23) = 2 ^ e * 8388608 := by
  rw [zpow_add₀ (by norm_num : (2 : ℚ) ≠ 0)]
  norm_num

theorem two_zpow_add_24 (e : ℤ) : (2 : ℚ) ^ (e + 24) = 2 ^ e * 16777216 := by
  rw [zpow_add₀ (by norm_num : (2 : ℚ) ≠ 0)]
  norm_num

theorem floatExponent_bracket (q : ℚ) (hq : 2 ≤ q) :
    -22 ≤ floatExponent q ∧ (2 : ℚ) ^ floatExponent q * 8388608 ≤ q ∧
      q < 2 ^ floatExponent q * 16777216 := by
  have hpos : 0 < q := by linarith
  have hb : 1 < 2 := by norm_num
  have c : ((2 : ℕ) : ℚ) = 2 := by norm_num
  have h1 : (1 : ℤ) ≤ Int.log 2 q := by
    rw [← Int.zpow_le_iff_le_log hb hpos, c]
    norm_num
    exact hq
  have h2 := Int.zpow_log_le_self hb hpos
  have h3 := Int.lt_zpow_succ_log_self hb q
  rw [c] at h2 h3
  have he : floatExponent q = Int.log 2 q - 23 := by
    unfold floatExponent
    rw [abs_of_pos hpos]
    omega
  refine ⟨by omega, ?_, ?_⟩
  · rw [← two_zpow_add_23, he]
    simpa using h2
  · rw [← two_zpow_add_24, he]
    have : Int.log 2 q - 23 + 24 = Int.log 2 q + 1 := by ring
    rw [this]
    exact h3

theorem roundToFloat_step (h s : ℚ) (hf : IsFloatFromTwo h) (hs : 0 < s) :
    h ≤ roundToFloat (h + s) ∧ IsFloatFromTwo (roundToFloat (h + s)) ∧
      (1 / 8 < s → h + s < 4194304 → h < roundToFloat (h + s)) := by
  obtain ⟨M, a, hM1, hM2, ha, rfl⟩ := hf
  have hpa : (0 : ℚ) < 2 ^ a := zpow_pos (by norm_num) a
  have hM1q : (8388608 : ℚ) ≤ (M : ℚ) := by exact_mod_cast hM1
  have hM2q : (M : ℚ) < 16777216 := by exact_mod_cast hM2
  have h22 : (2 : ℚ) ^ (-22 : ℤ) ≤ 2 ^ a := zpow_le_zpow_right₀ (by norm_num) ha
  have h22v : (2 : ℚ) ^ (-22 : ℤ) = 1 / 4194304 := by norm_num
  have hh2 : (2 : ℚ) ≤ (M : ℚ) * 2 ^ a := by
    have : (8388608 : ℚ) * (1 / 4194304) ≤ (M : ℚ) * 2 ^ a := by
      rw [← h22v]
      exact mul_le_mul hM1q h22 (by positivity) (by linarith)
    linarith
  set q : ℚ := (M : ℚ) * 2 ^ a + s with hq
  have hq2 : 2 ≤ q := by linarith
  obtain ⟨he, hlo, hhi⟩ := floatExponent_bracket q hq2
  set e : ℤ := floatExponent q with hedef
  have hpe : (0 : ℚ) < 2 ^ e := zpow_pos (by norm_num) e
  set t : ℚ := q / 2 ^ e with ht
  have hqt : q = t * 2 ^ e := by
    rw [ht, div_mul_cancel₀ _ (ne_of_gt hpe)]
  have ht1 : (8388608 : ℚ) ≤ t := by
    rw [ht, le_div_iff₀ hpe]
    linarith
  have ht2 : t < 16777216 := by
    rw [ht, div_lt_iff₀ hpe]
    linarith
  have hF1 : (8388608 : ℤ) ≤ ⌊t⌋ := by
    rw [Int.le_floor]
    exact_mod_cast ht1
  have hF2 : ⌊t⌋ < (16777216 : ℤ) := by
    rw [Int.floor_lt]
    exact_mod_cast ht2
  have hR1 := roundHalfEven_ge_floor t
  have hR2 := roundHalfEven_le_floor_succ t
  have hfl : roundToFloat q = (roundHalfEven t : ℚ) * 2 ^ e := rfl
  -- the exponent of the sum is at least that of the summand
  have hae : a ≤ e := by
    have h1 : (2 : ℚ) ^ a * 8388608 < 2 ^ e * 16777216 := by
      have : (2 : ℚ) ^ a * 8388608 ≤ (M : ℚ) * 2 ^ a := by
        rw [mul_comm]
        exact mul_le_mul_of_nonneg_right hM1q (le_of_lt hpa)
      linarith
    rw [← two_zpow_add_23, ← two_zpow_add_24, zpow_lt_zpow_iff_right₀ (by norm_num)] at h1
    omega
  have hRq1 : (8388608 : ℚ) ≤ (roundHalfEven t : ℚ) := by
    have : (8388608 : ℤ) ≤ roundHalfEven t := by omega
    exact_mod_cast this
  -- comparison with the summand
  have hcmp : (M : ℚ) * 2 ^ a ≤ (roundHalfEven t : ℚ) * 2 ^ e ∧
      (1 / 8 < s → q < 4194304 → (M : ℚ) * 2 ^ a < (roundHalfEven t : ℚ) * 2 ^ e) := by
    rcases eq_or_lt_of_le hae with hEq | hLt
    · -- same exponent
      have hMt : (M : ℚ) ≤ t := by
        rw [ht, le_div_iff₀ hpe, ← hEq]
        linarith
      have hMF : M ≤ ⌊t⌋ := by
        rw [Int.le_floor]
        exact hMt
      constructor
      · have : (M : ℚ) ≤ (roundHalfEven t : ℚ) := by
          have : M ≤ roundHalfEven t := by omega
          exact_mod_cast this
        rw [hEq]
        exact mul_le_mul_of_nonneg_right this (le_of_lt hpe)
      · intro hs8 hq22
        have he2 : e ≤ -2 := by
          have h1 : (2 : ℚ) ^ e * 8388608 < 4194304 := by linarith
          have h2 : (2 : ℚ) ^ (e + 23) < 2 ^ (22 : ℤ) := by
            rw [two_zpow_add_23]
            norm_num
            exact h1
          rw [zpow_lt_zpow_iff_right₀ (by norm_num)] at h2
          omega
        have hp4 : (2 : ℚ) ^ e ≤ 1 / 4 := by
          have := zpow_le_zpow_right₀ (by norm_num : (1 : ℚ) ≤ 2) he2
          have h4 : (2 : ℚ) ^ (-2 : ℤ) = 1 / 4 := by norm_num
          rw [h4] at this
          exact this
        have hthalf : (M : ℚ) + 1 / 2 < t := by
          rw [ht, lt_div_iff₀ hpe, ← hEq]
          have : ((M : ℚ) + 1 / 2) * 2 ^ a = (M : ℚ) * 2 ^ a + 2 ^ a / 2 := by ring
          rw [this, hEq]
          have : (2 : ℚ) ^ e / 2 < s := by linarith
          rw [← hEq] at this ⊢
          linarith
        have hR : M + 1 ≤ roundHalfEven t := by
          rcases eq_or_lt_of_le hMF with hFM | hFM
          · have := roundHalfEven_up t M hthalf (by
              have := Int.lt_floor_add_one t
              rw [← hFM] at this
              exact_mod_cast this)
            omega
          · omega
        have hRq : (M : ℚ) + 1 ≤ (roundHalfEven t : ℚ) := by exact_mod_cast hR
        rw [hEq]
        have : (M : ℚ) * 2 ^ e < ((M : ℚ) + 1) * 2 ^ e := by nlinarith
        exact lt_of_lt_of_le this (mul_le_mul_of_nonneg_right hRq (le_of_lt hpe))
    · -- the sum has a larger exponent
      have h1 : (2 : ℚ) ^ (a + 24) ≤ 2 ^ (e + 23) := by
        apply zpow_le_zpow_right₀ (by norm_num)
        omega
      rw [two_zpow_add_23, two_zpow_add_24] at h1
      have h2 : (M : ℚ) * 2 ^ a < 2 ^ a * 16777216 := by
        rw [mul_comm]
        exact mul_lt_mul_of_pos_left hM2q hpa
      have h3 : (2 : ℚ) ^ e * 8388608 ≤ (roundHalfEven t : ℚ) * 2 ^ e := by
        rw [mul_comm]
        exact mul_le_mul_of_nonneg_right hRq1 (le_of_lt hpe)
      constructor
      · linarith
      · intro _ _
        linarith
  refine ⟨by rw [hfl]; exact hcmp.1, ?_, fun h1 h2 => by rw [hfl]; exact hcmp.2 h1 h2⟩
  -- the result is again a float
  rw [hfl]
  by_cases hR : roundHalfEven t < 16777216
  · exact ⟨roundHalfEven t, e, by omega, hR, he, rfl⟩
  · have hRe : roundHalfEven t = 16777216 := by omega
    refine ⟨8388608, e + 1, by norm_num, by norm_num, by omega, ?_⟩
    rw [hRe, zpow_add_one₀ (by norm_num : (2 : ℚ) ≠ 0)]
    push_cast
    ring


theorem isFloatFromTwo_ge (h : ℚ) (hf : IsFloatFromTwo h) : 2 ≤ h := by
  obtain ⟨M, a, hM1, _, ha, rfl⟩ := hf
  have hM1q : (8388608 : ℚ) ≤ (M : ℚ) := by exact_mod_cast hM1
  have h22 : (2 : ℚ) ^ (-22 : ℤ) ≤ 2 ^ a := zpow_le_zpow_right₀ (by norm_num) ha
  have h22v : (2 : ℚ) ^ (-22 : ℤ) = 1 / 4194304 := by norm_num
  have : (8388608 : ℚ) * (1 / 4194304) ≤ (M : ℚ) * 2 ^ a := by
    rw [← h22v]
    exact mul_le_mul hM1q h22 (by positivity) (by linarith)
  linarith

theorem roundToFloat_step_le (h s : ℚ) (h2 : 2 ≤ h) (hle : h ≤ 4194304) (hs0 : 0 < s)
    (hs : s < 1 / 4) : roundToFloat (h + s) ≤ 4194304 := by
  have hq2 : 2 ≤ h + s := by linarith
  obtain ⟨_, hlo, hhi⟩ := floatExponent_bracket (h + s) hq2
  have hfl : roundToFloat (h + s) =
      (roundHalfEven ((h + s) / 2 ^ floatExponent (h + s)) : ℚ) *
        2 ^ floatExponent (h + s) := rfl
  generalize floatExponent (h + s) = e at hlo hhi hfl
  have hpe : (0 : ℚ) < 2 ^ e := zpow_pos (by norm_num) e
  have he1 : e ≤ -1 := by
    have h1 : (2 : ℚ) ^ (e + 23) < 2 ^ (23 : ℤ) := by
      rw [two_zpow_add_23]
      norm_num
      linarith
    rw [zpow_lt_zpow_iff_right₀ (by norm_num)] at h1
    omega
  rw [hfl]
  rcases eq_or_lt_of_le he1 with hEq | hLt
  · subst hEq
    have hhalf : (2 : ℚ) ^ (-1 : ℤ) = 1 / 2 := by norm_num
    rw [hhalf] at hlo ⊢
    rw [roundHalfEven_down _ 8388608 (by push_cast; linarith) (by push_cast; linarith)]
    norm_num
  · have ht2 : (h + s) / 2 ^ e < 16777216 := by
      rw [div_lt_iff₀ hpe]
      linarith
    have hF2 : ⌊(h + s) / 2 ^ e⌋ < (16777216 : ℤ) := by
      rw [Int.floor_lt]
      exact_mod_cast ht2
    have hR := roundHalfEven_le_floor_succ ((h + s) / 2 ^ e)
    have hRq : (roundHalfEven ((h + s) / 2 ^ e) : ℚ) ≤ 16777216 := by
      have : roundHalfEven ((h + s) / 2 ^ e) ≤ 16777216 := by omega
      exact_mod_cast this
    have h24 : (2 : ℚ) ^ (e + 24) ≤ 2 ^ (22 : ℤ) := by
      apply zpow_le_zpow_right₀ (by norm_num)
      omega
    rw [two_zpow_add_24] at h24
    have h22v : (2 : ℚ) ^ (22 : ℤ) = 4194304 := by norm_num
    rw [h22v] at h24
    have := mul_le_mul_of_nonneg_right hRq (le_of_lt hpe)
    linarith

theorem isFloatFromTwo_two : IsFloatFromTwo 2 :=
  ⟨8388608, -22, by norm_num, by norm_num, by norm_num, by norm_num⟩

theorem histogramMultiplierStep_pos : 0 < histogramMultiplierStep := by
  unfold histogramMultiplierStep
  norm_num

theorem floatAdd_initial_step :
    floatAdd histogramMultiplierInitial histogramMultiplierStep = 9227469 / 4194304 := by
  unfold floatAdd histogramMultiplierInitial histogramMultiplierStep
  exact roundToFloat_round1

theorem refineRounds_succ_last {P σ : Type} (col : Collaborators P σ) :
    ∀ (k : Nat) (s : InpaintState P σ),
      refineRounds col (k + 1) s = refineRound col (refineRounds col k s) := by
  intro k
  induction k with
  | zero => intro s; rfl
  | succ j ih =>
    intro s
    exact ih (refineRound col s)

theorem refineRound_multiplier {P σ : Type} (col : Collaborators P σ) (s : InpaintState P σ) :
    (refineRound col s).acceptanceTest.NeighborHistogramMultiplier = s.histogramMultiplier := rfl

theorem refineRound_histogramMultiplier {P σ : Type} (col : Collaborators P σ)
    (s : InpaintState P σ) :
    (refineRound col s).histogramMultiplier =
      roundToFloat (s.histogramMultiplier + histogramMultiplierStep) := rfl

theorem refineRounds_isFloat {P σ : Type} (col : Collaborators P σ) (s : InpaintState P σ)
    (h : IsFloatFromTwo s.histogramMultiplier) :
    ∀ k, IsFloatFromTwo (refineRounds col k s).histogramMultiplier := by
  intro k
  induction k with
  | zero => exact h
  | succ j ih =>
    rw [refineRounds_succ_last, refineRound_histogramMultiplier]
    exact (roundToFloat_step _ _ ih histogramMultiplierStep_pos).2.1

theorem refineRounds_le {P σ : Type} (col : Collaborators P σ) (s : InpaintState P σ)
    (h : IsFloatFromTwo s.histogramMultiplier) (hle : s.histogramMultiplier ≤ 4194304) :
    ∀ k, (refineRounds col k s).histogramMultiplier ≤ 4194304 := by
  intro k
  induction k with
  | zero => exact hle
  | succ j ih =>
    rw [refineRounds_succ_last, refineRound_histogramMultiplier]
    exact roundToFloat_step_le _ _ (isFloatFromTwo_ge _ (refineRounds_isFloat col s h j)) ih
      histogramMultiplierStep_pos (by unfold histogramMultiplierStep; norm_num)

theorem refineRounds_iteration {P σ : Type} (col : Collaborators P σ) :
    ∀ (k : Nat) (s : InpaintState P σ), s.iteration < UINT_RANGE →
      (refineRounds col k s).iteration = (s.iteration + k) % UINT_RANGE := by
  intro k
  induction k with
  | zero =>
    intro s hs
    exact (Nat.mod_eq_of_lt hs).symm
  | succ j ih =>
    intro s hs
    have hlt : (refineRound col s).iteration < UINT_RANGE :=
      Nat.mod_lt _ (by unfold UINT_RANGE; omega)
    rw [refineRounds_succ, ih (refineRound col s) hlt]
    show ((s.iteration + 1) % UINT_RANGE + j) % UINT_RANGE = (s.iteration + (j + 1)) % UINT_RANGE
    unfold UINT_RANGE
    omega

/-- Counterexample to C6: with the collaborator that never verifies a pixel,
on the 5 by 5 controller, the rounds with index 0 and 1 are both run, and the
round with index 1 sets the multiplier of the acceptance test to
9227469/4194304 (2.0f + 0.2f in single precision), which is not 2 + 0.2 * 1. -/
theorem threshold_schedule_counterexample :
    refineCondition (refineRounds idleCollaborators 0 (refineStart5 idleCollaborators)) = true ∧
    refineCondition (refineRounds idleCollaborators 1 (refineStart5 idleCollaborators)) = true ∧
    (refineRound idleCollaborators (refineRounds idleCollaborators 1
      (refineStart5 idleCollaborators))).acceptanceTest.NeighborHistogramMultiplier =
        9227469 / 4194304 ∧
    (refineRound idleCollaborators (refineRounds idleCollaborators 1
      (refineStart5 idleCollaborators))).acceptanceTest.NeighborHistogramMultiplier ≠
        2 + (1 / 5 : ℚ) * 1 := by
  have hv : (refineRound idleCollaborators (refineRounds idleCollaborators 1
      (refineStart5 idleCollaborators))).acceptanceTest.NeighborHistogramMultiplier =
        9227469 / 4194304 := by
    show floatAdd histogramMultiplierInitial histogramMultiplierStep = 9227469 / 4194304
    exact floatAdd_initial_step
  refine ⟨idle_refineCondition 0, idle_refineCondition 1, hv, ?_⟩
  rw [hv]
  norm_num

/-- C6 (amended). The acceptance test is created with multiplier 2.0 (line
107) and the loop is entered with `histogramMultiplier = 2.0` and
`iteration = 0`. The round with 0-based index `k` sets the multiplier of the
acceptance test to the value of `histogramMultiplier` after `k` rounds, which
is obtained from 2.0f by `k` single-precision additions of 0.2f, each rounded
to nearest; after one round it is 9227469/4194304. The value never decreases
from one round to the next and strictly increases as long as the sum stays
below 4194304, where an addition of 0.2f no longer changes it; it never
exceeds 4194304, so no addition overflows; and after `k` rounds `iteration` is
`k` modulo 2^32. -/
theorem threshold_schedule {P σ : Type} (col : Collaborators P σ)
    (self : BDSInpaintingRings P σ) (k : Nat) :
    (inpaintEntry self).acceptanceTest.NeighborHistogramMultiplier = 2 ∧
    (inpaintInitialize col (inpaintEntry self)).histogramMultiplier = 2 ∧
    (inpaintInitialize col (inpaintEntry self)).iteration = 0 ∧
    (refineRound col (refineRounds col k (inpaintInitialize col (inpaintEntry self)))
      ).acceptanceTest.NeighborHistogramMultiplier =
      (refineRounds col k (inpaintInitialize col (inpaintEntry self))).histogramMultiplier ∧
    (refineRounds col (k + 1) (inpaintInitialize col (inpaintEntry self))).histogramMultiplier =
      roundToFloat
        ((refineRounds col k (inpaintInitialize col (inpaintEntry self))).histogramMultiplier +
          13421773 / 67108864) ∧
    roundToFloat (1 / 5) = 13421773 / 67108864 ∧
    (refineRounds col 1 (inpaintInitialize col (inpaintEntry self))).histogramMultiplier =
      9227469 / 4194304 ∧
    (refineRounds col k (inpaintInitialize col (inpaintEntry self))).histogramMultiplier ≤
      (refineRounds col (k + 1) (inpaintInitialize col (inpaintEntry self))).histogramMultiplier ∧
    ((refineRounds col k (inpaintInitialize col (inpaintEntry self))).histogramMultiplier +
        13421773 / 67108864 < 4194304 →
      (refineRounds col k (inpaintInitialize col (inpaintEntry self))).histogramMultiplier <
        (refineRounds col (k + 1)
          (inpaintInitialize col (inpaintEntry self))).histogramMultiplier) ∧
    roundToFloat (4194304 + 13421773 / 67108864) = 4194304 ∧
    (refineRounds col k (inpaintInitialize col (inpaintEntry self))).histogramMultiplier ≤
      4194304 ∧
    (refineRounds col k (inpaintInitialize col (inpaintEntry self))).iteration =
      k % 4294967296 := by
  have h0 : (inpaintInitialize col (inpaintEntry self)).histogramMultiplier = 2 := rfl
  have hfloat : IsFloatFromTwo
      (refineRounds col k (inpaintInitialize col (inpaintEntry self))).histogramMultiplier :=
    refineRounds_isFloat col _ (by rw [h0]; exact isFloatFromTwo_two) k
  have hnext : (refineRounds col (k + 1)
      (inpaintInitialize col (inpaintEntry self))).histogramMultiplier =
      roundToFloat
        ((refineRounds col k (inpaintInitialize col (inpaintEntry self))).histogramMultiplier +
          13421773 / 67108864) := by
    rw [refineRounds_succ_last, refineRound_histogramMultiplier]
    rfl
  have hstep := roundToFloat_step _ (13421773 / 67108864) hfloat (by norm_num)
  have hbound := refineRounds_le col (inpaintInitialize col (inpaintEntry self))
    (by rw [h0]; exact isFloatFromTwo_two) (by rw [h0]; norm_num) k
  refine ⟨rfl, h0, rfl, refineRound_multiplier col _, hnext, roundToFloat_fifth, ?_, ?_, ?_,
    roundToFloat_stall, hbound, ?_⟩
  · show floatAdd histogramMultiplierInitial histogramMultiplierStep = 9227469 / 4194304
    exact floatAdd_initial_step
  · rw [hnext]
    exact hstep.1
  · intro hlt
    rw [hnext]
    exact hstep.2.2 (by norm_num) hlt
  · have := refineRounds_iteration col k (inpaintInitialize col (inpaintEntry self))
      (by show 0 < UINT_RANGE; unfold UINT_RANGE; omega)
    rw [this]
    show (0 + k) % UINT_RANGE = k % 4294967296
    rw [Nat.zero_add]
    rfl

/-- Witness for C6 (amended): on the 5 by 5 controller the first addition stays
below 4194304, so the multiplier of round 1 is above that of round 0. -/
theorem threshold_schedule_witness :
    (refineRounds idleCollaborators 0 (inpaintInitialize idleCollaborators
      (inpaintEntry controller5))).histogramMultiplier <
    (refineRounds idleCollaborators 1 (inpaintInitialize idleCollaborators
      (inpaintEntry controller5))).histogramMultiplier :=
  (threshold_schedule idleCollaborators controller5 0).2.2.2.2.2.2.2.2.1 (by
    show (2 : ℚ) + 13421773 / 67108864 < 4194304
    norm_num)

/-! ## C7: the stored target mask and image are not modified -/

theorem refineRounds_frame {P σ : Type} (col : Collaborators P σ) :
    ∀ (k : Nat) (s : InpaintState P σ),
      (refineRounds col k s).TargetMask = s.TargetMask ∧
        (refineRounds col k s).Image = s.Image := by
  intro k
  induction k with
  | zero => intro s; exact ⟨rfl, rfl⟩
  | succ j ih =>
    intro s
    rw [refineRounds_succ]
    exact ih (refineRound col s)

theorem ringIterations_frame {P σ : Type} (conn : Connectivity) (col : Collaborators P σ) :
    ∀ (k : Nat) (s : InpaintState P σ),
      (ringIterations conn col k s).TargetMask = s.TargetMask ∧
        (ringIterations conn col k s).Image = s.Image := by
  intro k
  induction k with
  | zero => intro s; exact ⟨rfl, rfl⟩
  | succ j ih =>
    intro s
    exact ih (ringIteration conn col s)

theorem refineLoop_frame {P σ : Type} (col : Collaborators P σ) (fuel : Nat)
    (s s1 : InpaintState P σ) (h : refineLoop col fuel s = some s1) :
    s1.TargetMask = s.TargetMask ∧ s1.Image = s.Image := by
  obtain ⟨n, _, _, _, heq⟩ := (refineLoop_eq_some_iff col fuel s s1).1 h
  rw [heq]
  exact refineRounds_frame col n s

theorem ringPeelingLoop_frame {P σ : Type} (conn : Connectivity) (col : Collaborators P σ) :
    ∀ (fuel : Nat) (s s1 : InpaintState P σ), ringPeelingLoop conn col fuel s = some s1 →
      s1.TargetMask = s.TargetMask ∧ s1.Image = s.Image := by
  intro fuel
  induction fuel with
  | zero => intro s s1 h; simp [ringPeelingLoop] at h
  | succ n ih =>
    intro s s1 h
    unfold ringPeelingLoop at h
    by_cases hc : s.currentTargetMask.HasValidPixels = true
    · rw [if_pos hc] at h
      exact ih (ringIteration conn col s) s1 h
    · rw [if_neg hc] at h
      cases h
      exact ⟨rfl, rfl⟩

theorem refineLoop_verifying5 :
    refineLoop verifyingCollaborators 2 (refineStart5 verifyingCollaborators) =
      some (refineRound verifyingCollaborators (refineStart5 verifyingCollaborators)) := by
  have h1 : refineCondition (refineStart5 verifyingCollaborators) = true := by decide
  have h2 : refineCondition
      (refineRound verifyingCollaborators (refineStart5 verifyingCollaborators)) = false := by
    decide
  rw [refineLoop, if_pos h1, refineLoop, h2]
  rfl

/-- C7. `Inpaint` never writes the members `TargetMask` and `Image`: they are
unchanged by the entry snapshots, by the initialisation, by any number of
refinement rounds and of ring iterations, by the whole call when it ends (at
`exit`), and by the ring-peeling statements that follow up to the copy into
`Output`. Every mask operation and every image overwrite acts on a local. -/
theorem Inpaint_frame {P σ : Type} (conn : Connectivity) (col : Collaborators P σ)
    (self : BDSInpaintingRings P σ) :
    ((inpaintEntry self).TargetMask = self.TargetMask ∧
      (inpaintEntry self).Image = self.Image) ∧
    (∀ s : InpaintState P σ, (inpaintInitialize col s).TargetMask = s.TargetMask ∧
      (inpaintInitialize col s).Image = s.Image) ∧
    (∀ (k : Nat) (s : InpaintState P σ), (refineRounds col k s).TargetMask = s.TargetMask ∧
      (refineRounds col k s).Image = s.Image) ∧
    (∀ (k : Nat) (s : InpaintState P σ),
      (ringIterations conn col k s).TargetMask = s.TargetMask ∧
        (ringIterations conn col k s).Image = s.Image) ∧
    (∀ (fuel : Nat) (status : Int) (s1 : InpaintState P σ),
      Inpaint col fuel self = .exited status s1 →
        s1.TargetMask = self.TargetMask ∧ s1.Image = self.Image) ∧
    (∀ (fuel : Nat) (s s1 : InpaintState P σ), inpaintRings conn col fuel s = some s1 →
      s1.TargetMask = s.TargetMask ∧ s1.Image = s.Image) := by
  refine ⟨⟨rfl, rfl⟩, fun s => ⟨rfl, rfl⟩, refineRounds_frame col,
    ringIterations_frame conn col, ?_, ?_⟩
  · intro fuel status s1 h
    unfold Inpaint at h
    cases hr : refineLoop col fuel (inpaintInitialize col (inpaintEntry self)) with
    | none => rw [hr] at h; cases h
    | some s2 =>
      rw [hr] at h
      cases h
      exact refineLoop_frame col fuel _ _ hr
  · intro fuel s s1 h
    unfold inpaintRings at h
    cases hr : ringPeelingLoop conn col fuel { s with ringCounter := 0 } with
    | none => rw [hr] at h; cases h
    | some s2 =>
      rw [hr] at h
      cases h
      exact ringPeelingLoop_frame conn col fuel { s with ringCounter := 0 } s2 hr

/-- Witness for C7: the call on the 5 by 5 controller ends at `exit` after one
round with the stored target mask and image as they were. -/
theorem Inpaint_frame_witness :
    Inpaint verifyingCollaborators 2 controller5 =
      .exited (-1) (refineRound verifyingCollaborators (refineStart5 verifyingCollaborators)) ∧
    (refineRound verifyingCollaborators (refineStart5 verifyingCollaborators)).TargetMask =
      controller5.TargetMask ∧
    (refineRound verifyingCollaborators (refineStart5 verifyingCollaborators)).Image =
      controller5.Image :=
  have h : Inpaint verifyingCollaborators 2 controller5 =
      .exited (-1) (refineRound verifyingCollaborators (refineStart5 verifyingCollaborators)) := by
    unfold Inpaint
    rw [show inpaintInitialize verifyingCollaborators (inpaintEntry controller5) =
      refineStart5 verifyingCollaborators from rfl, refineLoop_verifying5]
  ⟨h, (Inpaint_frame .eight verifyingCollaborators controller5).2.2.2.2.1 2 (-1) _ h⟩

/-! ## C8: no domain check at entry -/

/-- Counterexample to C8: on a 5 by 5 image with a 3 by 3 source mask the
spec's checked controller reports `DomainMismatch`, but `Inpaint` does not stop
at entry: the NNField is allocated over the 5 by 5 region, the source mask is
conditioned (pixel (0, 0) turns from Valid to Hole) and the call ends at the
`exit(-1)` that follows the refinement loop. -/
theorem Inpaint_domain_counterexample :
    domainMismatch mismatched5 = true ∧
    specInpaintChecked verifyingCollaborators 2 mismatched5 = .error .DomainMismatch ∧
    specInpaintChecked verifyingCollaborators 2 mismatched5 ≠
      .ok (Inpaint verifyingCollaborators 2 mismatched5) ∧
    Inpaint verifyingCollaborators 2 mismatched5 =
      .exited (-1) (refineRound verifyingCollaborators
        (inpaintInitialize verifyingCollaborators (inpaintEntry mismatched5))) ∧
    (inpaintEntry mismatched5).nnField.width = 5 ∧
    (inpaintEntry mismatched5).nnField.height = 5 ∧
    mismatched5.SourceMask.valid 0 0 = true ∧
    (inpaintInitialize verifyingCollaborators (inpaintEntry mismatched5)).SourceMask.valid 0 0 =
      false := by
  have hm : domainMismatch mismatched5 = true := by decide
  have hs : specInpaintChecked verifyingCollaborators 2 mismatched5 = .error .DomainMismatch := by
    unfold specInpaintChecked
    rw [if_pos hm]
  refine ⟨hm, hs, ?_, ?_, rfl, rfl, rfl, by decide⟩
  · rw [hs]
    intro h
    cases h
  · have h1 : refineCondition
        (inpaintInitialize verifyingCollaborators (inpaintEntry mismatched5)) = true := by
      decide
    have h2 : refineCondition (refineRound verifyingCollaborators
        (inpaintInitialize verifyingCollaborators (inpaintEntry mismatched5))) = false := by
      decide
    unfold Inpaint
    rw [refineLoop, if_pos h1, refineLoop, h2]
    rfl

/-- C8 (amended). `Inpaint` performs no domain check: for every image and
masks, whatever their domain sizes, entry allocates the NNField over the region
of the image, and the call either is still in the refinement loop or ends at
the `exit(-1)` after it; it agrees with a controller that rejects a domain
mismatch at entry exactly on the inputs whose three domains coincide. -/
theorem Inpaint_no_domain_check {P σ : Type} (col : Collaborators P σ) (fuel : Nat)
    (self : BDSInpaintingRings P σ) :
    (inpaintEntry self).nnField.width = self.Image.width ∧
    (inpaintEntry self).nnField.height = self.Image.height ∧
    (Inpaint col fuel self = .running ∨ ∃ s1, Inpaint col fuel self = .exited (-1) s1) ∧
    (specInpaintChecked col fuel self = .ok (Inpaint col fuel self) ↔
      domainMismatch self = false) := by
  refine ⟨rfl, rfl, ?_, ?_⟩
  · unfold Inpaint
    cases refineLoop col fuel (inpaintInitialize col (inpaintEntry self)) with
    | none => exact Or.inl rfl
    | some s1 => exact Or.inr ⟨s1, rfl⟩
  · unfold specInpaintChecked
    cases hm : domainMismatch self
    · simp
    · simp

/-! ## C9: the exit status of a run that gets through the refinement loop -/

/-- C9 (the code on every such run). For every invocation with at least five
arguments in which the image and both masks are read and the refinement loop
terminates, the process is ended by the `exit(-1)` of line 237: the exit status
is -1, not `EXIT_SUCCESS`, the ring-peeling loop is not run and no output image
is written. -/
theorem main_exit_status {P σ : Type} (env : DriverEnv P σ) (fuel : Nat) (argv : List String)
    (image : TImage P) (sourceMask targetMask : Mask) (s1 : InpaintState P σ)
    (hargc : 6 ≤ argv.length)
    (himage : env.readImage (parseArguments env.uninitialised argv).imageFilename = some image)
    (hsource : env.readMask (parseArguments env.uninitialised argv).sourceMaskFilename =
      some sourceMask)
    (htarget : env.readMask (parseArguments env.uninitialised argv).targetMaskFilename =
      some targetMask)
    (hloop : refineLoop env.collaborators fuel
      (inpaintInitialize env.collaborators
        (inpaintEntry (driverController env (parseArguments env.uninitialised argv)
          image sourceMask targetMask))) = some s1) :
    (main env fuel argv).finish = .exitStatus (-1) ∧
    (main env fuel argv).finish ≠ .exitStatus EXIT_SUCCESS ∧
    (main env fuel argv).outputWritten = none ∧
    Inpaint env.collaborators fuel
      (driverController env (parseArguments env.uninitialised argv) image sourceMask targetMask) =
        .exited (-1) s1 := by
  have hI : Inpaint env.collaborators fuel
      (driverController env (parseArguments env.uninitialised argv) image sourceMask targetMask) =
        .exited (-1) s1 := by
    unfold Inpaint
    rw [hloop]
  have hlen : ¬ argv.length < 6 := by omega
  have hfin : (main env fuel argv).finish = .exitStatus (-1) := by
    unfold main
    rw [if_neg hlen]
    simp only [himage, hsource, htarget, hI]
  have hout : (main env fuel argv).outputWritten = none := by
    unfold main
    rw [if_neg hlen]
    simp only [himage, hsource, htarget, hI]
  refine ⟨hfin, ?_, hout, hI⟩
  rw [hfin]
  decide

/-- Witness for C9: the command line with five arguments in an environment
where every file is readable and the loop ends after one round. -/
theorem main_exit_status_witness :
    (main env5 2 argv5).finish = .exitStatus (-1) ∧
    (main env5 2 argv5).finish ≠ .exitStatus EXIT_SUCCESS ∧
    (main env5 2 argv5).outputWritten = none :=
  have h1 : refineCondition (inpaintInitialize env5.collaborators
      (inpaintEntry (driverController env5 (parseArguments env5.uninitialised argv5)
        image5 centre3 centre3))) = true := by decide
  have h2 : refineCondition (refineRound env5.collaborators (inpaintInitialize env5.collaborators
      (inpaintEntry (driverController env5 (parseArguments env5.uninitialised argv5)
        image5 centre3 centre3)))) = false := by decide
  have hloop : refineLoop env5.collaborators 2 (inpaintInitialize env5.collaborators
      (inpaintEntry (driverController env5 (parseArguments env5.uninitialised argv5)
        image5 centre3 centre3))) = some (refineRound env5.collaborators
          (inpaintInitialize env5.collaborators
            (inpaintEntry (driverController env5 (parseArguments env5.uninitialised argv5)
              image5 centre3 centre3)))) := by
    rw [refineLoop, if_pos h1, refineLoop, h2]
    rfl
  have h := main_exit_status env5 2 argv5 image5 centre3 centre3 _ (by decide) rfl rfl rfl hloop
  ⟨h.1, h.2.1, h.2.2.1⟩

/-! ## C10: the argument-count check and the extraction of the arguments -/

theorem fillStream_foldl (l : List String) :
    ∀ ss : StringStream,
      l.foldl (fun ss a => { ss with buffer := ss.buffer ++ a.toList ++ [' '] }) ss =
        { buffer := ss.buffer ++ l.flatMap (fun a => a.toList ++ [' ']), fail := ss.fail } := by
  induction l with
  | nil => intro ss; simp
  | cons a t ih =>
    intro ss
    rw [List.foldl_cons, ih]
    simp [List.flatMap_cons, List.append_assoc]

theorem fillStream_eq (prog : String) (l : List String) :
    fillStream (prog :: l) =
      { buffer := l.flatMap (fun a => a.toList ++ [' ']), fail := false } := by
  unfold fillStream
  rw [List.drop_one, List.tail_cons, fillStream_foldl]
  simp

theorem isspace_blank : isspace ' ' = true := by decide

theorem isDigit_not_isspace (c : Char) (h : c.isDigit = true) : isspace c = false := by
  cases hs : isspace c
  · rfl
  · simp only [isspace, Bool.or_eq_true, beq_iff_eq] at hs
    rcases hs with ((((h1 | h1) | h1) | h1) | h1) | h1 <;> subst h1 <;> revert h <;> decide

theorem extractString_token (pre token rest old : List Char)
    (hpre : ∀ c ∈ pre, isspace c = true) (hne : token ≠ [])
    (htoken : ∀ c ∈ token, isspace c = false) :
    extractString { buffer := pre ++ (token ++ ' ' :: rest), fail := false } old =
      ({ buffer := ' ' :: rest, fail := false }, token) := by
  obtain ⟨c, t, rfl⟩ := List.exists_cons_of_ne_nil hne
  have hc : isspace c = false := htoken c (List.mem_cons_self _ _)
  have hdrop : List.dropWhile isspace (pre ++ (c :: t ++ ' ' :: rest)) = c :: t ++ ' ' :: rest := by
    rw [List.dropWhile_append_of_pos hpre, List.cons_append,
      List.dropWhile_cons_of_neg (by simp [hc])]
  have hnot : ∀ a ∈ c :: t, (fun c => !isspace c) a = true := by
    intro a ha
    simp [htoken a ha]
  have htake : List.takeWhile (fun c => !isspace c) (c :: t ++ ' ' :: rest) = c :: t := by
    rw [List.takeWhile_append_of_pos hnot, List.takeWhile_cons_of_neg (by simp [isspace_blank])]
    simp
  have hdrop2 : List.dropWhile (fun c => !isspace c) (c :: t ++ ' ' :: rest) = ' ' :: rest := by
    rw [List.dropWhile_append_of_pos hnot, List.dropWhile_cons_of_neg (by simp [isspace_blank])]
  unfold extractString
  simp only [Bool.false_eq_true, if_false, hdrop, htake, hdrop2, List.isEmpty_cons]

theorem extractUnsigned_digits (pre digits rest : List Char) (old : Nat)
    (hpre : ∀ c ∈ pre, isspace c = true) (hne : digits ≠ [])
    (hdigits : ∀ c ∈ digits, c.isDigit = true) (hfit : digitsValue digits ≤ 4294967295) :
    extractUnsigned { buffer := pre ++ (digits ++ ' ' :: rest), fail := false } old =
      ({ buffer := ' ' :: rest, fail := false }, digitsValue digits) := by
  obtain ⟨c, t, rfl⟩ := List.exists_cons_of_ne_nil hne
  have hc : c.isDigit = true := hdigits c (List.mem_cons_self _ _)
  have hcs : isspace c = false := isDigit_not_isspace c hc
  have hdrop : List.dropWhile isspace (pre ++ (c :: t ++ ' ' :: rest)) = c :: t ++ ' ' :: rest := by
    rw [List.dropWhile_append_of_pos hpre, List.cons_append,
      List.dropWhile_cons_of_neg (by simp [hcs])]
  have hminus : (some c == some '-') = false := by
    cases h : (some c == some '-')
    · rfl
    · have : c = '-' := by simpa using h
      subst this
      revert hc
      decide
  have hplus : (some c == some '+') = false := by
    cases h : (some c == some '+')
    · rfl
    · have : c = '+' := by simpa using h
      subst this
      revert hc
      decide
  have hblank : ¬ (' ' : Char).isDigit = true := by decide
  have htake : List.takeWhile Char.isDigit (c :: t ++ ' ' :: rest) = c :: t := by
    rw [List.takeWhile_append_of_pos hdigits, List.takeWhile_cons_of_neg hblank]
    simp
  have hdrop2 : List.dropWhile Char.isDigit (c :: t ++ ' ' :: rest) = ' ' :: rest := by
    rw [List.dropWhile_append_of_pos hdigits, List.dropWhile_cons_of_neg hblank]
  have hgt : ¬ digitsValue (c :: t) > 4294967295 := by omega
  unfold extractUnsigned
  simp only [Bool.false_eq_true, if_false, hdrop]
  simp only [List.cons_append, List.head?_cons, hminus, hplus, Bool.or_self,
    Bool.false_eq_true, if_false]
  rw [← List.cons_append, htake, hdrop2]
  simp only [List.isEmpty_cons, Bool.false_eq_true, if_false, hgt]

theorem isToken_iff (a : String) :
    isToken a = true ↔ a.toList ≠ [] ∧ ∀ c ∈ a.toList, isspace c = false := by
  simp [isToken, List.isEmpty_iff]

theorem isNumber_iff (a : String) :
    isNumber a = true ↔
      a.toList ≠ [] ∧ (∀ c ∈ a.toList, c.isDigit = true) ∧
        digitsValue a.toList ≤ 4294967295 := by
  simp [isNumber, List.isEmpty_iff, and_assoc]

theorem parseArguments_tokens (uninitialised : Nat) (prog a1 a2 a3 a4 a5 : String)
    (rest : List String) (h1 : isToken a1 = true) (h2 : isToken a2 = true)
    (h3 : isToken a3 = true) (h4 : isNumber a4 = true) (h5 : isToken a5 = true) :
    parseArguments uninitialised (prog :: a1 :: a2 :: a3 :: a4 :: a5 :: rest) =
      { imageFilename := a1.toList
        sourceMaskFilename := a2.toList
        targetMaskFilename := a3.toList
        patchRadius := digitsValue a4.toList
        outputFilename := a5.toList } := by
  obtain ⟨n1, t1⟩ := (isToken_iff a1).1 h1
  obtain ⟨n2, t2⟩ := (isToken_iff a2).1 h2
  obtain ⟨n3, t3⟩ := (isToken_iff a3).1 h3
  obtain ⟨n4, t4, f4⟩ := (isNumber_iff a4).1 h4
  obtain ⟨n5, t5⟩ := (isToken_iff a5).1 h5
  have hblank : ∀ c ∈ [' '], isspace c = true := by
    intro c hc
    rw [List.mem_singleton] at hc
    rw [hc]
    exact isspace_blank
  have hnil : ∀ c ∈ ([] : List Char), isspace c = true := by
    intro c hc
    cases hc
  generalize hR5 : rest.flatMap (fun a : String => a.toList ++ [' ']) = R5
  have hb : fillStream (prog :: a1 :: a2 :: a3 :: a4 :: a5 :: rest) =
      { buffer := a1.toList ++ ' ' :: (a2.toList ++ ' ' :: (a3.toList ++ ' ' ::
          (a4.toList ++ ' ' :: (a5.toList ++ ' ' :: R5)))), fail := false } := by
    rw [fillStream_eq]
    simp only [List.flatMap_cons, List.append_assoc, List.cons_append, List.nil_append, hR5]
  have e1 : extractString
      { buffer := a1.toList ++ ' ' :: (a2.toList ++ ' ' :: (a3.toList ++ ' ' ::
          (a4.toList ++ ' ' :: (a5.toList ++ ' ' :: R5)))), fail := false } [] = _ :=
    extractString_token [] a1.toList _ [] hnil n1 t1
  have e2 : extractString
      { buffer := ' ' :: (a2.toList ++ ' ' :: (a3.toList ++ ' ' ::
          (a4.toList ++ ' ' :: (a5.toList ++ ' ' :: R5)))), fail := false } [] = _ :=
    extractString_token [' '] a2.toList _ [] hblank n2 t2
  have e3 : extractString
      { buffer := ' ' :: (a3.toList ++ ' ' ::
          (a4.toList ++ ' ' :: (a5.toList ++ ' ' :: R5))), fail := false } [] = _ :=
    extractString_token [' '] a3.toList _ [] hblank n3 t3
  have e4 : extractUnsigned
      { buffer := ' ' :: (a4.toList ++ ' ' :: (a5.toList ++ ' ' :: R5)), fail := false }
      uninitialised = _ :=
    extractUnsigned_digits [' '] a4.toList _ uninitialised hblank n4 t4 f4
  have e5 : extractString
      { buffer := ' ' :: (a5.toList ++ ' ' :: R5), fail := false } [] = _ :=
    extractString_token [' '] a5.toList _ [] hblank n5 t5
  unfold parseArguments
  simp only [hb, e1, e2, e3, e4, e5]

/-- Counterexample to C10: with `argc = 6` and an image path that contains a
blank, the first argument is not taken as the image path: the image file name
is "my", the source mask file name is "image.png", the target mask file name is
"source.mask", the extraction of the patch radius from "target.mask" fails and
leaves 0, and the output file name stays empty. -/
theorem main_arguments_counterexample :
    6 ≤ argvBlank.length ∧
    (main env5 2 argvBlank).parsed = some (parseArguments env5.uninitialised argvBlank) ∧
    (parseArguments env5.uninitialised argvBlank).imageFilename ≠ "my image.png".toList ∧
    (parseArguments env5.uninitialised argvBlank).imageFilename = "my".toList ∧
    (parseArguments env5.uninitialised argvBlank).sourceMaskFilename = "image.png".toList ∧
    (parseArguments env5.uninitialised argvBlank).targetMaskFilename = "source.mask".toList ∧
    (parseArguments env5.uninitialised argvBlank).patchRadius = 0 ∧
    (parseArguments env5.uninitialised argvBlank).outputFilename = [] := by
  refine ⟨by decide, rfl, by decide, by decide, by decide, by decide, by decide, by decide⟩

/-- C10 (amended). With fewer than five user arguments (`argc < 6`) `main`
returns `EXIT_FAILURE` and nothing is parsed, read, run or written. With
`argc >= 6` the count check passes and the five values are extracted from the
blank-joined arguments; they are the first five arguments in order (image path,
source-mask path, target-mask path, patch radius, output path), whatever
follows them, when each of the four paths is non-empty and free of white space
and the radius is a plain decimal number that fits an `unsigned int`. -/
theorem main_arguments {P σ : Type} (env : DriverEnv P σ) (fuel : Nat) (argv : List String) :
    (argv.length < 6 →
      main env fuel argv =
        { finish := .exitStatus EXIT_FAILURE, parsed := none, filesRequested := []
          inpaintCalled := false, outputWritten := none } ∧
      EXIT_FAILURE ≠ 0) ∧
    (6 ≤ argv.length →
      (main env fuel argv).parsed = some (parseArguments env.uninitialised argv)) ∧
    (∀ (prog a1 a2 a3 a4 a5 : String) (rest : List String),
      argv = prog :: a1 :: a2 :: a3 :: a4 :: a5 :: rest →
      isToken a1 = true → isToken a2 = true → isToken a3 = true → isNumber a4 = true →
      isToken a5 = true →
      parseArguments env.uninitialised argv =
        { imageFilename := a1.toList
          sourceMaskFilename := a2.toList
          targetMaskFilename := a3.toList
          patchRadius := digitsValue a4.toList
          outputFilename := a5.toList }) := by
  refine ⟨?_, ?_, ?_⟩
  · intro h
    refine ⟨?_, by decide⟩
    unfold main
    rw [if_pos h]
  · intro h
    have hlen : ¬ argv.length < 6 := by omega
    unfold main
    rw [if_neg hlen]
    dsimp only
    repeat' split
    all_goals rfl
  · intro prog a1 a2 a3 a4 a5 rest hargv h1 h2 h3 h4 h5
    rw [hargv]
    exact parseArguments_tokens env.uninitialised prog a1 a2 a3 a4 a5 rest h1 h2 h3 h4 h5

/-- Witness for C10 (amended): one argument gives `EXIT_FAILURE` with nothing
parsed; the five well-formed arguments, followed by a sixth, are taken in order. -/
theorem main_arguments_witness :
    (main env5 2 ["BDSInpaintingRings", "image.png"]).finish = .exitStatus EXIT_FAILURE ∧
    (main env5 2 ["BDSInpaintingRings", "image.png"]).parsed = none ∧
    parseArguments env5.uninitialised (argv5 ++ ["extra"]) =
      { imageFilename := "image.png".toList
        sourceMaskFilename := "source.mask".toList
        targetMaskFilename := "target.mask".toList
        patchRadius := 1
        outputFilename := "out.png".toList } :=
  have h1 := ((main_arguments env5 2 ["BDSInpaintingRings", "image.png"]).1 (by decide)).1
  ⟨by rw [h1], by rw [h1],
    (main_arguments env5 2 (argv5 ++ ["extra"])).2.2 "BDSInpaintingRings" "image.png"
      "source.mask" "target.mask" "1" "out.png" ["extra"] rfl (by decide) (by decide)
      (by decide) (by decide) (by decide)⟩

/-! ## C11: the image handed to the inner routine -/

theorem verifyAbove_Verified (mask : Mask) (multiplier : ℚ) (f : NNField) (x y : Nat) :
    ((verifyAbove mask multiplier f).entry x y).Verified =
      (mask.valid x y && decide ((11 / 5 : ℚ) ≤ multiplier) || (f.entry x y).Verified) := by
  unfold verifyAbove
  by_cases h : (mask.valid x y && decide ((11 / 5 : ℚ) ≤ multiplier)) = true
  · simp only [h, if_true, Bool.true_or]
  · simp only [Bool.not_eq_true] at h
    simp only [h, Bool.false_eq_true, if_false, Bool.false_or]

theorem refineCondition_of_unverified {P σ : Type} (s : InpaintState P σ) (x y : Nat)
    (hx : x < s.nnField.width) (hy : y < s.nnField.height)
    (hvalid : s.outsideTargetMask.valid x y = true)
    (hunverified : (s.nnField.entry x y).Verified = false) : refineCondition s = true := by
  cases hc : refineCondition s
  · have h0 := (refineCondition_eq_false_iff s).1 hc
    have := (CountTestedPixels_eq_zero_iff _ _ _).1 h0 x y hx hy hvalid
    rw [testNotVerifiedLambda_eq, hunverified] at this
    cases this
  · rfl

/-- Counterexample to C12: with a verifier that accepts from multiplier 2.2 on
and a PatchMatch functor that leaves the field alone, the loop is entered with
the ring pixel (0, 1) unverified; the round with index 1, whose multiplier is
9227469/4194304 (2.0f + 0.2f, just above 2.2), leaves it unverified and the
loop condition true, whereas a round that ran the verifier with the multiplier
of the round would have marked it verified. -/
theorem refineRound_verifier_counterexample :
    (refineStart5 thresholdCollaborators).outsideTargetMask.valid 0 1 = true ∧
    refineCondition (refineStart5 thresholdCollaborators) = true ∧
    (refineRound thresholdCollaborators
      (refineStart5 thresholdCollaborators)).histogramMultiplier = 9227469 / 4194304 ∧
    ((refineRound thresholdCollaborators (refineRound thresholdCollaborators
      (refineStart5 thresholdCollaborators))).nnField.entry 0 1).Verified = false ∧
    refineCondition (refineRound thresholdCollaborators (refineRound thresholdCollaborators
      (refineStart5 thresholdCollaborators))) = true ∧
    ((specRefineRound thresholdCollaborators (refineRound thresholdCollaborators
      (refineStart5 thresholdCollaborators))).nnField.entry 0 1).Verified = true ∧
    refineRound thresholdCollaborators (refineRound thresholdCollaborators
      (refineStart5 thresholdCollaborators)) ≠
      specRefineRound thresholdCollaborators (refineRound thresholdCollaborators
        (refineStart5 thresholdCollaborators)) := by
  have hm : (refineRound thresholdCollaborators
      (refineStart5 thresholdCollaborators)).histogramMultiplier = 9227469 / 4194304 := by
    show floatAdd histogramMultiplierInitial histogramMultiplierStep = 9227469 / 4194304
    exact floatAdd_initial_step
  have hring : (refineStart5 thresholdCollaborators).outsideTargetMask.valid 0 1 = true := by
    decide
  have hlow : decide ((11 / 5 : ℚ) ≤ 2) = false := by
    rw [decide_eq_false_iff_not]
    norm_num
  have hhigh : decide ((11 / 5 : ℚ) ≤ floatAdd histogramMultiplierInitial
      histogramMultiplierStep) = true := by
    rw [decide_eq_true_iff, floatAdd_initial_step]
    norm_num
  have hv0 : ((refineStart5 thresholdCollaborators).nnField.entry 0 1).Verified = false := by
    show ((verifyAbove (inpaintEntry controller5).outsideTargetMask 2
      (thresholdCollaborators.InitializeRandom image5 (inpaintEntry controller5).outsideTargetMask
        (conditionSourceMask allValid5 1) 1 (NNField.Allocate 5 5))).entry 0 1).Verified = false
    rw [verifyAbove_Verified, hlow]
    decide
  have hv : ((refineRound thresholdCollaborators (refineRound thresholdCollaborators
      (refineStart5 thresholdCollaborators))).nnField.entry 0 1).Verified = false := hv0
  have hs : ((specRefineRound thresholdCollaborators (refineRound thresholdCollaborators
      (refineStart5 thresholdCollaborators))).nnField.entry 0 1).Verified = true := by
    show ((verifyAbove (inpaintEntry controller5).outsideTargetMask
      (floatAdd histogramMultiplierInitial histogramMultiplierStep)
      (refineStart5 thresholdCollaborators).nnField).entry 0 1).Verified = true
    rw [verifyAbove_Verified, hhigh]
    have : (inpaintEntry controller5).outsideTargetMask.valid 0 1 = true := hring
    rw [this]
    rfl
  refine ⟨hring, ?_, hm, hv, ?_, hs, ?_⟩
  · exact refineCondition_of_unverified _ 0 1 (by decide) (by decide) hring hv0
  · exact refineCondition_of_unverified _ 0 1 (by decide) (by decide) hring hv
  · intro h
    rw [h, hs] at hv
    cases hv

/-- C12 (amended). The Verifier is run once, before the loop, over
`outsideTargetMask` with multiplier 2. A round of the loop sets the multiplier
of the local acceptance test to the value of the round, runs the member
PatchMatch functor on the field and copies its output back: the field after the
round is that output, the same whatever the Verifier would do; a round that
also ran the Verifier with the multiplier of the round would apply it to the
field the source's round ends with. -/
theorem refineRound_no_verifier {P σ : Type} (col : Collaborators P σ) (s : InpaintState P σ) :
    (inpaintInitialize col s).nnField =
      col.Verify s.currentImage s.outsideTargetMask 2 s.PatchRadius
        (col.InitializeRandom s.Image s.outsideTargetMask
          (conditionSourceMask s.SourceMask s.PatchRadius) s.PatchRadius
          (col.InitializeKnownRegion s.SourceMask s.PatchRadius
            (col.LocalCompute s.PatchRadius (col.Propagate s.acceptanceTest s.nnField)))) ∧
    (refineRound col s).acceptanceTest.NeighborHistogramMultiplier = s.histogramMultiplier ∧
    (refineRound col s).nnField = col.GetOutput (col.Compute s.PatchMatchFunctor s.nnField) ∧
    (∀ verify : TImage P → Mask → ℚ → Nat → NNField → NNField,
      refineRound { col with Verify := verify } s = refineRound col s) ∧
    (specRefineRound col s).nnField =
      col.Verify s.currentImage s.outsideTargetMask s.histogramMultiplier s.PatchRadius
        (refineRound col s).nnField :=
  ⟨rfl, rfl, rfl, fun _ => rfl, rfl⟩

end BDSInpainting
